import Mathlib

set_option maxRecDepth 100000
set_option maxHeartbeats 4000000

/-! Shallow embedding of the CHIP-8 emulator core (`src/chip8/src/lib.rs`).

Machine integers are modelled as `Nat` with explicit wraparound (`% 256` for
`u8`, `% 65536` for `u16`) at the spots where the Rust code relies on
wrapping semantics.  Rust array indexing panics when the index is out of
bounds, so operations that can index out of bounds return `Option`, with
`none` standing for the unrecoverable fault (panic).  Reads whose index is
structurally in bounds for a well-formed state (register indices are nibbles,
hence `< 16`) are written `l[i]?.getD d`. -/

-- lib.rs:3-10
def RAM_SIZE : Nat := 4096
def SCREEN_WIDTH : Nat := 64
def SCREEN_HEIGHT : Nat := 32
def NUM_REGS : Nat := 16
def STACK_SIZE : Nat := 16
def START_ADDRESS : Nat := 0x200
def NUM_KEYS : Nat := 16
def FONTSET_SIZE : Nat := 80

-- lib.rs:17-34
def FONTSET : List Nat := [
  0xF0, 0x90, 0x90, 0x90, 0xF0,
  0x20, 0x60, 0x20, 0x20, 0x70,
  0xF0, 0x10, 0xF0, 0x80, 0xF0,
  0xF0, 0x10, 0xF0, 0x10, 0xF0,
  0x90, 0x90, 0xF0, 0x10, 0x10,
  0xF0, 0x80, 0xF0, 0x10, 0xF0,
  0xF0, 0x80, 0xF0, 0x90, 0xF0,
  0xF0, 0x10, 0x20, 0x40, 0x40,
  0xF0, 0x90, 0xF0, 0x90, 0xF0,
  0xF0, 0x90, 0xF0, 0x10, 0xF0,
  0xF0, 0x90, 0xF0, 0x90, 0x90,
  0xE0, 0x90, 0xE0, 0x90, 0xE0,
  0xF0, 0x80, 0x80, 0x80, 0xF0,
  0xE0, 0x90, 0x90, 0x90, 0xE0,
  0xF0, 0x80, 0xF0, 0x80, 0xF0,
  0xF0, 0x80, 0xF0, 0x80, 0x80]

-- lib.rs:36-47
structure Chip8 where
  pc : Nat
  ram : List Nat
  v_regi : List Nat
  i_regi : Nat
  display : List Bool
  stack : List Nat
  stkp : Nat
  delay_t : Nat
  sound_t : Nat
  keys : List Bool
deriving DecidableEq

/-- Overwrites the first `FONTSET_SIZE` bytes of `ram` with the font table
(`ram[..FONTSET_SIZE].copy_from_slice(&FONTSET)`, lib.rs:64 and lib.rs:104). -/
def copyFontset (ram : List Nat) : List Nat := FONTSET ++ ram.drop FONTSET_SIZE

-- lib.rs:50-66
def Chip8.init : Chip8 :=
  { pc := START_ADDRESS
    ram := copyFontset (List.replicate RAM_SIZE 0)
    v_regi := List.replicate NUM_REGS 0
    i_regi := 0
    display := List.replicate (SCREEN_WIDTH * SCREEN_HEIGHT) false
    stack := List.replicate STACK_SIZE 0
    stkp := 0
    delay_t := 0
    sound_t := 0
    keys := List.replicate NUM_KEYS false }

-- lib.rs:68-71; `self.stack[self.stkp] = data` panics when the pointer is
-- out of range, hence the guard.
def Chip8.push (s : Chip8) (data : Nat) : Option Chip8 :=
  if s.stkp < s.stack.length then
    some { s with stack := s.stack.set s.stkp data, stkp := s.stkp + 1 }
  else none

-- lib.rs:73-76; `self.stkp -= 1` with `stkp == 0` aborts (u16 underflow /
-- subsequent out-of-range index), hence the guard.
def Chip8.pop (s : Chip8) : Option (Chip8 × Nat) :=
  if s.stkp = 0 then none
  else
    match s.stack[s.stkp - 1]? with
    | some v => some ({ s with stkp := s.stkp - 1 }, v)
    | none => none

-- lib.rs:82-84
def Chip8.keypress (s : Chip8) (idx : Nat) (pressed : Bool) : Option Chip8 :=
  if idx < s.keys.length then some { s with keys := s.keys.set idx pressed } else none

-- lib.rs:86-90; the slice assignment panics when the ROM overflows memory.
def Chip8.load (s : Chip8) (data : List Nat) : Option Chip8 :=
  if START_ADDRESS + data.length ≤ s.ram.length then
    let written := s.ram.take START_ADDRESS ++ data ++ s.ram.drop (START_ADDRESS + data.length)
    some { s with ram := written }
  else none

-- lib.rs:93-105
def Chip8.reset (s : Chip8) : Chip8 :=
  { s with
    pc := START_ADDRESS
    ram := copyFontset (List.replicate RAM_SIZE 0)
    display := List.replicate (SCREEN_WIDTH * SCREEN_HEIGHT) false
    v_regi := List.replicate NUM_REGS 0
    i_regi := 0
    stkp := 0
    stack := List.replicate STACK_SIZE 0
    keys := List.replicate NUM_KEYS false
    delay_t := 0
    sound_t := 0 }

-- lib.rs:114-120; `(high << 8) | low` equals `high * 256 + low` for byte
-- values, and `self.pc += 2` wraps at the u16 boundary.
def Chip8.fetch (s : Chip8) : Option (Chip8 × Nat) :=
  match s.ram[s.pc]?, s.ram[s.pc + 1]? with
  | some high, some low => some ({ s with pc := (s.pc + 2) % 65536 }, high * 256 + low)
  | _, _ => none

-- lib.rs:123-126; the four nibbles of an opcode.
def nb1 (opcode : Nat) : Nat := opcode / 4096 % 16  -- (opcode & 0xF000) >> 12
def nb2 (opcode : Nat) : Nat := opcode / 256 % 16   -- (opcode & 0x0F00) >> 8
def nb3 (opcode : Nat) : Nat := opcode / 16 % 16    -- (opcode & 0x00F0) >> 4
def nb4 (opcode : Nat) : Nat := opcode % 16         -- opcode & 0x000F

/-- Guarded array write: `l[i] = a` panics when `i` is out of bounds. -/
def setChecked (l : List Nat) (i : Nat) (a : Nat) : Option (List Nat) :=
  if i < l.length then some (l.set i a) else none

/-- One draw-loop body iteration on the accumulator `(display, flipped)`
(lib.rs:327-329): `flipped |= self.display[idx]; self.display[idx] ^= true;`.
The display index is always `< 2048`, in bounds for a well-formed display. -/
def toggleStep (acc : List Bool × Bool) (idx : Nat) : List Bool × Bool :=
  (acc.1.set idx (xor (acc.1[idx]?.getD false) true), acc.2 || acc.1[idx]?.getD false)

/-- Inner draw loop over the 8 sprite columns of one row (lib.rs:318-331);
`x0` is the sprite x origin and `yAbs = y0 + y_line`. -/
def drawRow (pixels x0 yAbs : Nat) (acc : List Bool × Bool) : List Bool × Bool :=
  (List.range 8).foldl
    (fun a xLine =>
      if pixels &&& (128 >>> xLine) ≠ 0 then
        toggleStep a ((x0 + xLine) % SCREEN_WIDTH + SCREEN_WIDTH * ((yAbs) % SCREEN_HEIGHT))
      else a) acc

/-- Outer draw loop over the sprite rows (lib.rs:313-332): row `yLine` reads
`ram[i_regi + yLine]` (panic if out of bounds) and toggles its set bits;
`rows` counts the rows still to draw. -/
def drawRowsAux (ram : List Nat) (i x0 y0 : Nat) : Nat → Nat → (List Bool × Bool) → Option (List Bool × Bool)
  | _, 0, acc => some acc
  | yLine, rows+1, acc =>
    match ram[i + yLine]? with
    | some pixels => drawRowsAux ram i x0 y0 (yLine + 1) rows (drawRow pixels x0 (y0 + yLine) acc)
    | none => none

/-- First pressed key, scanning indices upward (lib.rs:371-377); `o` is the
index offset already scanned. -/
def firstKeyAux : List Bool → Nat → Option Nat
  | [], _ => none
  | k :: rest, o => if k then some o else firstKeyAux rest (o + 1)

def firstKey (keys : List Bool) : Option Nat := firstKeyAux keys 0

/-- Register block store `for idx in 0..=x { ram[i + idx] = v_regi[idx] }`
(lib.rs:425-431), iterating in increasing index order. -/
def storeRegs (v : List Nat) (i : Nat) (ram : List Nat) : Nat → Option (List Nat)
  | 0 => setChecked ram i (v[0]?.getD 0)
  | x+1 =>
    match storeRegs v i ram x with
    | some r => setChecked r (i + (x + 1)) (v[x + 1]?.getD 0)
    | none => none

/-- Register block load `for idx in 0..=x { v_regi[idx] = ram[i + idx] }`
(lib.rs:434-440), iterating in increasing index order. -/
def loadRegs (ram : List Nat) (i : Nat) (v : List Nat) : Nat → Option (List Nat)
  | 0 =>
    match ram[i]? with
    | some b => some (v.set 0 b)
    | none => none
  | x+1 =>
    match loadRegs ram i v x with
    | some v1 =>
      match ram[i + (x + 1)]? with
      | some b => some (v1.set (x + 1) b)
      | none => none
    | none => none

/-- Floor of the base-2 logarithm (fuelled; `lg2 64 n` is exact for `n ≥ 1`,
`n < 2 ^ 64`). -/
def lg2 : Nat → Nat → Nat
  | 0, _ => 0
  | fuel+1, n => if n < 2 then 0 else 1 + lg2 fuel (n / 2)

/-- IEEE-754 binary32 round-to-nearest, ties-to-even, of the exact quotient
`n / d`, returned as an exact dyadic rational (numerator, power-of-two
denominator).  The exponent search is valid for `n / d` in `[2 ^ (-9), 2 ^ 32)`,
which covers every quotient the BCD instruction produces.  This models the
`f32` divisions of lib.rs:415-416: IEEE division returns the correctly
rounded exact quotient.  The significand `m / d` is scaled into
`[2 ^ 23, 2 ^ 24)` and rounded at integer granularity (24-bit precision). -/
def rnd24N (n d : Nat) : Nat × Nat :=
  if n = 0 then (0, 1)
  else
    let s := 32 - lg2 64 (n * 512 / d)
    let m := n * 2 ^ s
    let fl := m / d
    let r := m % d
    let rounded := if 2 * r < d then fl else if d < 2 * r then fl + 1
                   else if fl % 2 = 0 then fl else fl + 1
    (rounded, 2 ^ s)

/-- BCD digits as the `f32` pipeline of lib.rs:411-422 computes them:
`hundreds = (vx / 100.0).floor() as u8`, `tens = ((vx / 10.0) % 10.0).floor()
as u8`, `ones = (vx % 10.0) as u8`.  `vx as f32` is exact for `vx ≤ 255`;
the divisions are correctly rounded (modelled by `rnd24N`); the IEEE `%`
(fmod) and `floor` are exact, so they are computed on the dyadic rational
`p / q` exactly: `fmod(p / q, 10) = p / q - 10 * ⌊p / (10 q)⌋` and the final
casts truncate.  `vx % 10.0` has two exactly representable operands, so
`ones` is exactly `vx % 10`. -/
def bcdOf (vx : Nat) : Nat × Nat × Nat :=
  let hundreds := (rnd24N vx 100).1 / (rnd24N vx 100).2
  let p := (rnd24N vx 10).1
  let q := (rnd24N vx 10).2
  let tens := (p - 10 * q * (p / (10 * q))) / q
  let ones := vx % 10
  (hundreds, tens, ones)

/-- Decode-execute dispatch (lib.rs:122-444).  The match arms are rendered as
an if-chain in source order; the patterns are pairwise disjoint, so the order
is immaterial.  `rnd` is the byte the inline `rand::thread_rng().gen::<u8>()`
oracle would produce (taken mod 256); only the `(0xC,_,_,_)` arm uses it.
The final catch-all arm is `unimplemented!(...)`, a fatal fault: `none`. -/
def Chip8.execute (s : Chip8) (rnd : Nat) (opcode : Nat) : Option Chip8 :=
  -- NOP (0,0,0,0), lib.rs:131
  if nb1 opcode = 0 ∧ nb2 opcode = 0 ∧ nb3 opcode = 0 ∧ nb4 opcode = 0 then
    some s
  -- CLS (0,0,0xE,0), lib.rs:134-136
  else if nb1 opcode = 0 ∧ nb2 opcode = 0 ∧ nb3 opcode = 0xE ∧ nb4 opcode = 0 then
    some { s with display := List.replicate (SCREEN_WIDTH * SCREEN_HEIGHT) false }
  -- RET (0,0,0xE,0xE), lib.rs:139-142
  else if nb1 opcode = 0 ∧ nb2 opcode = 0 ∧ nb3 opcode = 0xE ∧ nb4 opcode = 0xE then
    match s.pop with
    | some (s1, return_address) => some { s1 with pc := return_address }
    | none => none
  -- JMP NNN (1,_,_,_), lib.rs:145-148
  else if nb1 opcode = 1 then
    some { s with pc := opcode % 4096 }
  -- CALL NNN (2,_,_,_), lib.rs:151-155
  else if nb1 opcode = 2 then
    match s.push s.pc with
    | some s1 => some { s1 with pc := opcode % 4096 }
    | none => none
  -- SKIP VX == NN (3,_,_,_), lib.rs:158-164
  else if nb1 opcode = 3 then
    if s.v_regi[nb2 opcode]?.getD 0 = opcode % 256 then
      some { s with pc := (s.pc + 2) % 65536 }
    else some s
  -- SKIP VX != NN (4,_,_,_), lib.rs:167-173
  else if nb1 opcode = 4 then
    if s.v_regi[nb2 opcode]?.getD 0 ≠ opcode % 256 then
      some { s with pc := (s.pc + 2) % 65536 }
    else some s
  -- SKIP VX == VY (5,_,_,_), lib.rs:176-182: the last nibble is not inspected
  else if nb1 opcode = 5 then
    if s.v_regi[nb2 opcode]?.getD 0 = s.v_regi[nb3 opcode]?.getD 0 then
      some { s with pc := (s.pc + 2) % 65536 }
    else some s
  -- VX = NN (6,_,_,_), lib.rs:185-189
  else if nb1 opcode = 6 then
    some { s with v_regi := s.v_regi.set (nb2 opcode) (opcode % 256) }
  -- VX += NN (7,_,_,_), lib.rs:192-196, wrapping_add
  else if nb1 opcode = 7 then
    let vx := (s.v_regi[nb2 opcode]?.getD 0 + opcode % 256) % 256
    some { s with v_regi := s.v_regi.set (nb2 opcode) vx }
  -- VX = VY (8,_,_,0), lib.rs:199-203
  else if nb1 opcode = 8 ∧ nb4 opcode = 0 then
    some { s with v_regi := s.v_regi.set (nb2 opcode) (s.v_regi[nb3 opcode]?.getD 0) }
  -- VX |= VY (8,_,_,1), lib.rs:206-210
  else if nb1 opcode = 8 ∧ nb4 opcode = 1 then
    let vx := s.v_regi[nb2 opcode]?.getD 0 ||| s.v_regi[nb3 opcode]?.getD 0
    some { s with v_regi := s.v_regi.set (nb2 opcode) vx }
  -- VX &= VY (8,_,_,2), lib.rs:213-217
  else if nb1 opcode = 8 ∧ nb4 opcode = 2 then
    let vx := s.v_regi[nb2 opcode]?.getD 0 &&& s.v_regi[nb3 opcode]?.getD 0
    some { s with v_regi := s.v_regi.set (nb2 opcode) vx }
  -- VX ^= VY (8,_,_,3), lib.rs:220-224
  else if nb1 opcode = 8 ∧ nb4 opcode = 3 then
    let vx := s.v_regi[nb2 opcode]?.getD 0 ^^^ s.v_regi[nb3 opcode]?.getD 0
    some { s with v_regi := s.v_regi.set (nb2 opcode) vx }
  -- VX += VY with carry (8,_,_,4), lib.rs:227-234: overflowing_add yields
  -- (sum mod 256, sum > 255); VX is written first, VF second.
  else if nb1 opcode = 8 ∧ nb4 opcode = 4 then
    let new_vx := (s.v_regi[nb2 opcode]?.getD 0 + s.v_regi[nb3 opcode]?.getD 0) % 256
    let new_vf := if 255 < s.v_regi[nb2 opcode]?.getD 0 + s.v_regi[nb3 opcode]?.getD 0 then 1 else 0
    some { s with v_regi := (s.v_regi.set (nb2 opcode) new_vx).set 0xF new_vf }
  -- VX -= VY with borrow (8,_,_,5), lib.rs:237-244: overflowing_sub yields
  -- ((vx + 256 - vy) mod 256, vx < vy); VX first, VF second.
  else if nb1 opcode = 8 ∧ nb4 opcode = 5 then
    let new_vx := (s.v_regi[nb2 opcode]?.getD 0 + 256 - s.v_regi[nb3 opcode]?.getD 0) % 256
    let new_vf := if s.v_regi[nb2 opcode]?.getD 0 < s.v_regi[nb3 opcode]?.getD 0 then 0 else 1
    some { s with v_regi := (s.v_regi.set (nb2 opcode) new_vx).set 0xF new_vf }
  -- VX >>= 1 (8,_,_,6), lib.rs:247-252: lsb saved, VX shifted, then VF = lsb.
  else if nb1 opcode = 8 ∧ nb4 opcode = 6 then
    let lsb := s.v_regi[nb2 opcode]?.getD 0 % 2
    some { s with v_regi := (s.v_regi.set (nb2 opcode) (s.v_regi[nb2 opcode]?.getD 0 / 2)).set 0xF lsb }
  -- VX = VY - VX (8,_,_,7), lib.rs:255-262
  else if nb1 opcode = 8 ∧ nb4 opcode = 7 then
    let new_vx := (s.v_regi[nb3 opcode]?.getD 0 + 256 - s.v_regi[nb2 opcode]?.getD 0) % 256
    let new_vf := if s.v_regi[nb3 opcode]?.getD 0 < s.v_regi[nb2 opcode]?.getD 0 then 0 else 1
    some { s with v_regi := (s.v_regi.set (nb2 opcode) new_vx).set 0xF new_vf }
  -- VX <<= 1 (8,_,_,0xE), lib.rs:265-270: msb saved, VX shifted (u8 wraps), VF = msb.
  else if nb1 opcode = 8 ∧ nb4 opcode = 0xE then
    let msb := s.v_regi[nb2 opcode]?.getD 0 / 128 % 2
    some { s with v_regi := (s.v_regi.set (nb2 opcode) (s.v_regi[nb2 opcode]?.getD 0 * 2 % 256)).set 0xF msb }
  -- SKIP VX != VY (9,_,_,0), lib.rs:273-279
  else if nb1 opcode = 9 ∧ nb4 opcode = 0 then
    if s.v_regi[nb2 opcode]?.getD 0 ≠ s.v_regi[nb3 opcode]?.getD 0 then
      some { s with pc := (s.pc + 2) % 65536 }
    else some s
  -- I = NNN (0xA,_,_,_), lib.rs:282-285
  else if nb1 opcode = 0xA then
    some { s with i_regi := opcode % 4096 }
  -- JMP V0 + NNN (0xB,_,_,_), lib.rs:288-291 (u16 sum, < 4351, no overflow)
  else if nb1 opcode = 0xB then
    some { s with pc := s.v_regi[0]?.getD 0 + opcode % 4096 }
  -- VX = rand() & NN (0xC,_,_,_), lib.rs:294-299
  else if nb1 opcode = 0xC then
    some { s with v_regi := s.v_regi.set (nb2 opcode) (rnd % 256 &&& opcode % 256) }
  -- DRAW (0xD,_,_,_), lib.rs:303-339
  else if nb1 opcode = 0xD then
    match drawRowsAux s.ram s.i_regi (s.v_regi[nb2 opcode]?.getD 0)
        (s.v_regi[nb3 opcode]?.getD 0) 0 (nb4 opcode) (s.display, false) with
    | some (disp, flipped) =>
      some { s with display := disp, v_regi := s.v_regi.set 0xF (if flipped then 1 else 0) }
    | none => none
  -- SKIP KEY PRESS (0xE,_,9,0xE), lib.rs:342-349: keys[vx] panics when vx ≥ 16
  else if nb1 opcode = 0xE ∧ nb3 opcode = 9 ∧ nb4 opcode = 0xE then
    match s.keys[s.v_regi[nb2 opcode]?.getD 0]? with
    | some key => if key then some { s with pc := (s.pc + 2) % 65536 } else some s
    | none => none
  -- SKIP KEY RELEASE (0xE,_,0xA,1), lib.rs:352-359
  else if nb1 opcode = 0xE ∧ nb3 opcode = 0xA ∧ nb4 opcode = 1 then
    match s.keys[s.v_regi[nb2 opcode]?.getD 0]? with
    | some key => if !key then some { s with pc := (s.pc + 2) % 65536 } else some s
    | none => none
  -- VX = DT (0xF,_,0,7), lib.rs:362-365
  else if nb1 opcode = 0xF ∧ nb3 opcode = 0 ∧ nb4 opcode = 7 then
    some { s with v_regi := s.v_regi.set (nb2 opcode) s.delay_t }
  -- WAIT KEY (0xF,_,0,0xA), lib.rs:368-382: first pressed key into VX, or
  -- rewind the program counter by 2 (pc ≥ 2 whenever reached through fetch)
  else if nb1 opcode = 0xF ∧ nb3 opcode = 0 ∧ nb4 opcode = 0xA then
    match firstKey s.keys with
    | some i => some { s with v_regi := s.v_regi.set (nb2 opcode) i }
    | none => some { s with pc := s.pc - 2 }
  -- DT = VX (0xF,_,1,5), lib.rs:385-388
  else if nb1 opcode = 0xF ∧ nb3 opcode = 1 ∧ nb4 opcode = 5 then
    some { s with delay_t := s.v_regi[nb2 opcode]?.getD 0 }
  -- ST = VX (0xF,_,1,8), lib.rs:391-394
  else if nb1 opcode = 0xF ∧ nb3 opcode = 1 ∧ nb4 opcode = 8 then
    some { s with sound_t := s.v_regi[nb2 opcode]?.getD 0 }
  -- I += VX (0xF,_,1,0xE), lib.rs:397-401, wrapping_add on u16
  else if nb1 opcode = 0xF ∧ nb3 opcode = 1 ∧ nb4 opcode = 0xE then
    some { s with i_regi := (s.i_regi + s.v_regi[nb2 opcode]?.getD 0) % 65536 }
  -- I = FONT (0xF,_,2,9), lib.rs:404-408
  else if nb1 opcode = 0xF ∧ nb3 opcode = 2 ∧ nb4 opcode = 9 then
    some { s with i_regi := s.v_regi[nb2 opcode]?.getD 0 * 5 }
  -- BCD (0xF,_,3,3), lib.rs:411-422
  else if nb1 opcode = 0xF ∧ nb3 opcode = 3 ∧ nb4 opcode = 3 then
    match setChecked s.ram s.i_regi (bcdOf (s.v_regi[nb2 opcode]?.getD 0)).1 with
    | some r1 =>
      match setChecked r1 (s.i_regi + 1) (bcdOf (s.v_regi[nb2 opcode]?.getD 0)).2.1 with
      | some r2 =>
        match setChecked r2 (s.i_regi + 2) (bcdOf (s.v_regi[nb2 opcode]?.getD 0)).2.2 with
        | some r3 => some { s with ram := r3 }
        | none => none
      | none => none
    | none => none
  -- STORE V0 - VX (0xF,_,5,5), lib.rs:425-431
  else if nb1 opcode = 0xF ∧ nb3 opcode = 5 ∧ nb4 opcode = 5 then
    match storeRegs s.v_regi s.i_regi s.ram (nb2 opcode) with
    | some r => some { s with ram := r }
    | none => none
  -- LOAD V0 - VX (0xF,_,6,5), lib.rs:434-440
  else if nb1 opcode = 0xF ∧ nb3 opcode = 6 ∧ nb4 opcode = 5 then
    match loadRegs s.ram s.i_regi s.v_regi (nb2 opcode) with
    | some v1 => some { s with v_regi := v1 }
    | none => none
  -- lib.rs:442: unimplemented!(...) — fatal fault
  else none

-- lib.rs:107-112
def Chip8.clock (s : Chip8) (rnd : Nat) : Option Chip8 :=
  match s.fetch with
  | some (s1, opcode) => s1.execute rnd opcode
  | none => none

-- lib.rs:446-457
def Chip8.clock_timers (s : Chip8) : Chip8 :=
  let s1 := if 0 < s.delay_t then { s with delay_t := s.delay_t - 1 } else s
  if 0 < s1.sound_t then { s1 with sound_t := s1.sound_t - 1 } else s1

/-- Well-formed machine state: the fixed array lengths of the Rust struct,
and byte-valuedness of the `u8` arrays. -/
def WF (s : Chip8) : Prop :=
  s.ram.length = RAM_SIZE ∧ s.v_regi.length = NUM_REGS ∧
  s.display.length = SCREEN_WIDTH * SCREEN_HEIGHT ∧ s.stack.length = STACK_SIZE ∧
  s.keys.length = NUM_KEYS ∧ (∀ b ∈ s.ram, b < 256) ∧ (∀ b ∈ s.v_regi, b < 256)

instance : DecidablePred WF := fun s => by unfold WF; infer_instance

/-- Nibble patterns matched by some arm of the dispatch in `Chip8.execute`
(equivalently, of the `match` of lib.rs:128-443) other than the catch-all. -/
def isImplemented (opcode : Nat) : Prop :=
  (nb1 opcode = 0 ∧ nb2 opcode = 0 ∧ nb3 opcode = 0 ∧ nb4 opcode = 0) ∨
  (nb1 opcode = 0 ∧ nb2 opcode = 0 ∧ nb3 opcode = 0xE ∧ nb4 opcode = 0) ∨
  (nb1 opcode = 0 ∧ nb2 opcode = 0 ∧ nb3 opcode = 0xE ∧ nb4 opcode = 0xE) ∨
  nb1 opcode = 1 ∨ nb1 opcode = 2 ∨ nb1 opcode = 3 ∨ nb1 opcode = 4 ∨
  nb1 opcode = 5 ∨ nb1 opcode = 6 ∨ nb1 opcode = 7 ∨
  (nb1 opcode = 8 ∧ (nb4 opcode = 0 ∨ nb4 opcode = 1 ∨ nb4 opcode = 2 ∨ nb4 opcode = 3 ∨
    nb4 opcode = 4 ∨ nb4 opcode = 5 ∨ nb4 opcode = 6 ∨ nb4 opcode = 7 ∨ nb4 opcode = 0xE)) ∨
  (nb1 opcode = 9 ∧ nb4 opcode = 0) ∨
  nb1 opcode = 0xA ∨ nb1 opcode = 0xB ∨ nb1 opcode = 0xC ∨ nb1 opcode = 0xD ∨
  (nb1 opcode = 0xE ∧ nb3 opcode = 9 ∧ nb4 opcode = 0xE) ∨
  (nb1 opcode = 0xE ∧ nb3 opcode = 0xA ∧ nb4 opcode = 1) ∨
  (nb1 opcode = 0xF ∧ ((nb3 opcode = 0 ∧ nb4 opcode = 7) ∨ (nb3 opcode = 0 ∧ nb4 opcode = 0xA) ∨
    (nb3 opcode = 1 ∧ nb4 opcode = 5) ∨ (nb3 opcode = 1 ∧ nb4 opcode = 8) ∨
    (nb3 opcode = 1 ∧ nb4 opcode = 0xE) ∨ (nb3 opcode = 2 ∧ nb4 opcode = 9) ∨
    (nb3 opcode = 3 ∧ nb4 opcode = 3) ∨ (nb3 opcode = 5 ∧ nb4 opcode = 5) ∨
    (nb3 opcode = 6 ∧ nb4 opcode = 5)))

instance : DecidablePred isImplemented := fun op => by unfold isImplemented; infer_instance

/-- Modelled from the spec: the 35 nibble-pattern rows of the opcode table in
section 4.6 of the specification (the code itself is the `match` modelled by
`Chip8.execute`; this predicate transcribes the spec's table instead, whose
fifth-row pattern is `5,X,Y,0`, with the last nibble fixed to `0`). -/
def specOpcodeListed (opcode : Nat) : Prop :=
  (nb1 opcode = 0 ∧ nb2 opcode = 0 ∧ nb3 opcode = 0 ∧ nb4 opcode = 0) ∨
  (nb1 opcode = 0 ∧ nb2 opcode = 0 ∧ nb3 opcode = 0xE ∧ nb4 opcode = 0) ∨
  (nb1 opcode = 0 ∧ nb2 opcode = 0 ∧ nb3 opcode = 0xE ∧ nb4 opcode = 0xE) ∨
  nb1 opcode = 1 ∨ nb1 opcode = 2 ∨ nb1 opcode = 3 ∨ nb1 opcode = 4 ∨
  (nb1 opcode = 5 ∧ nb4 opcode = 0) ∨ nb1 opcode = 6 ∨ nb1 opcode = 7 ∨
  (nb1 opcode = 8 ∧ (nb4 opcode = 0 ∨ nb4 opcode = 1 ∨ nb4 opcode = 2 ∨ nb4 opcode = 3 ∨
    nb4 opcode = 4 ∨ nb4 opcode = 5 ∨ nb4 opcode = 6 ∨ nb4 opcode = 7 ∨ nb4 opcode = 0xE)) ∨
  (nb1 opcode = 9 ∧ nb4 opcode = 0) ∨
  nb1 opcode = 0xA ∨ nb1 opcode = 0xB ∨ nb1 opcode = 0xC ∨ nb1 opcode = 0xD ∨
  (nb1 opcode = 0xE ∧ nb3 opcode = 9 ∧ nb4 opcode = 0xE) ∨
  (nb1 opcode = 0xE ∧ nb3 opcode = 0xA ∧ nb4 opcode = 1) ∨
  (nb1 opcode = 0xF ∧ ((nb3 opcode = 0 ∧ nb4 opcode = 7) ∨ (nb3 opcode = 0 ∧ nb4 opcode = 0xA) ∨
    (nb3 opcode = 1 ∧ nb4 opcode = 5) ∨ (nb3 opcode = 1 ∧ nb4 opcode = 8) ∨
    (nb3 opcode = 1 ∧ nb4 opcode = 0xE) ∨ (nb3 opcode = 2 ∧ nb4 opcode = 9) ∨
    (nb3 opcode = 3 ∧ nb4 opcode = 3) ∨ (nb3 opcode = 5 ∧ nb4 opcode = 5) ∨
    (nb3 opcode = 6 ∧ nb4 opcode = 5)))

instance : DecidablePred specOpcodeListed := fun op => by unfold specOpcodeListed; infer_instance

/-! ### Shallow well-formedness facts -/

theorem FONTSET_len : FONTSET.length = 80 := by decide

theorem FONTSET_mem_lt : ∀ b ∈ FONTSET, b < 256 := by decide

theorem init_ram_eq : Chip8.init.ram = FONTSET ++ List.replicate 4016 0 := by
  show copyFontset (List.replicate RAM_SIZE 0) = _
  unfold copyFontset
  show FONTSET ++ (List.replicate 4096 (0 : Nat)).drop 80 = _
  rw [show (List.replicate 4096 (0 : Nat)).drop 80 = List.replicate 4016 0 from
    (List.drop_replicate 0 80 4096).trans (by norm_num)]

theorem WF_init : WF Chip8.init := by
  refine ⟨?_, ?_, ?_, ?_, ?_, ?_, ?_⟩
  · show Chip8.init.ram.length = RAM_SIZE
    rw [init_ram_eq, List.length_append, FONTSET_len, List.length_replicate]
    decide
  · exact List.length_replicate _ _
  · exact List.length_replicate _ _
  · exact List.length_replicate _ _
  · exact List.length_replicate _ _
  · show ∀ b ∈ Chip8.init.ram, b < 256
    rw [init_ram_eq]
    intro b hb
    rcases List.mem_append.mp hb with h | h
    · exact FONTSET_mem_lt b h
    · rw [List.eq_of_mem_replicate h]
      norm_num
  · intro b hb
    rw [List.eq_of_mem_replicate (show b ∈ List.replicate NUM_REGS 0 from hb)]
    norm_num

theorem WF_set_v (s : Chip8) (hwf : WF s) (i a : Nat) (ha : a < 256) :
    WF { s with v_regi := s.v_regi.set i a } := by
  obtain ⟨w1, w2, w3, w4, w5, w6, w7⟩ := hwf
  refine ⟨w1, ?_, w3, w4, w5, w6, ?_⟩
  · show (s.v_regi.set i a).length = NUM_REGS
    rw [List.length_set]
    exact w2
  · intro b hb
    rcases List.mem_or_eq_of_mem_set hb with h | h
    · exact w7 b h
    · exact h ▸ ha

theorem WF_set_ram (s : Chip8) (hwf : WF s) (i a : Nat) (ha : a < 256) :
    WF { s with ram := s.ram.set i a } := by
  obtain ⟨w1, w2, w3, w4, w5, w6, w7⟩ := hwf
  refine ⟨?_, w2, w3, w4, w5, ?_, w7⟩
  · show (s.ram.set i a).length = RAM_SIZE
    rw [List.length_set]
    exact w1
  · intro b hb
    rcases List.mem_or_eq_of_mem_set hb with h | h
    · exact w6 b h
    · exact h ▸ ha

theorem init_ram_length : Chip8.init.ram.length = 4096 := WF_init.1

theorem init_ram_getElem (j : Nat) (h80 : 80 ≤ j) (hj : j < 4096) :
    Chip8.init.ram[j]? = some 0 := by
  rw [init_ram_eq, List.getElem?_append_right (by rw [FONTSET_len]; omega), FONTSET_len,
    List.getElem?_replicate, if_pos (by omega)]

/-! ### Basic facts about `fetch` -/

theorem fetch_eq (s : Chip8) {a b : Nat} (ha : s.ram[s.pc]? = some a)
    (hb : s.ram[s.pc + 1]? = some b) :
    s.fetch = some ({ s with pc := (s.pc + 2) % 65536 }, a * 256 + b) := by
  unfold Chip8.fetch
  rw [ha, hb]

theorem fetch_some {s s1 : Chip8} {op : Nat} (h : s.fetch = some (s1, op)) :
    s.pc + 1 < s.ram.length ∧ s1 = { s with pc := (s.pc + 2) % 65536 } ∧
      op = s.ram[s.pc]?.getD 0 * 256 + s.ram[s.pc + 1]?.getD 0 := by
  unfold Chip8.fetch at h
  cases hhi : s.ram[s.pc]? with
  | none =>
    cases hlo : s.ram[s.pc + 1]? <;> rw [hhi, hlo] at h <;> simp at h
  | some high =>
    cases hlo : s.ram[s.pc + 1]? with
    | none => rw [hhi, hlo] at h; simp at h
    | some low =>
      rw [hhi, hlo] at h
      have hlt : s.pc + 1 < s.ram.length := by
        rcases List.getElem?_eq_some.mp hlo with ⟨hl, -⟩
        exact hl
      simp only [Option.some.injEq, Prod.mk.injEq] at h
      refine ⟨hlt, h.1.symm, ?_⟩
      simp only [Option.getD_some]
      exact h.2.symm

/-! ### C9: reset is re-construction -/

/-- C9: for every machine state, `reset` yields exactly the freshly
constructed machine: program counter 0x200, registers, index register, stack,
stack pointer, timers and keys zeroed, display all unset, and memory zeroed
except the 80-byte font table at offsets 0–79. -/
theorem reset_eq_fresh_construction (s : Chip8) :
    s.reset = Chip8.init ∧
    Chip8.init.pc = 0x200 ∧
    Chip8.init.v_regi = List.replicate 16 0 ∧
    Chip8.init.i_regi = 0 ∧
    Chip8.init.stack = List.replicate 16 0 ∧
    Chip8.init.stkp = 0 ∧
    Chip8.init.delay_t = 0 ∧
    Chip8.init.sound_t = 0 ∧
    Chip8.init.keys = List.replicate 16 false ∧
    Chip8.init.display = List.replicate 2048 false ∧
    Chip8.init.ram.take 80 = FONTSET ∧
    Chip8.init.ram.drop 80 = List.replicate 4016 0 :=
  ⟨rfl, rfl, rfl, rfl, rfl, rfl, rfl, rfl, rfl, rfl,
   by
    show (FONTSET ++ (List.replicate RAM_SIZE 0).drop FONTSET_SIZE).take 80 = FONTSET
    rw [show (80 : Nat) = FONTSET.length from by decide]
    exact List.take_left _ _,
   by
    show (FONTSET ++ (List.replicate RAM_SIZE 0).drop FONTSET_SIZE).drop 80 = _
    rw [show (80 : Nat) = FONTSET.length from by decide]
    rw [List.drop_left]
    show (List.replicate 4096 (0 : Nat)).drop 80 = List.replicate 4016 0
    exact (List.drop_replicate 0 80 4096).trans (by norm_num)⟩

/-! ### C1: unmatched nibble patterns are fatal -/

theorem execute_unimplemented (s : Chip8) (rnd op : Nat) (h : ¬ isImplemented op) :
    s.execute rnd op = none := by
  have h16 : nb1 op < 16 := Nat.mod_lt _ (by norm_num)
  unfold isImplemented at h
  unfold Chip8.execute
  by_cases h0 : nb1 op = 0
  · have k1 : ¬(nb1 op = 0 ∧ nb2 op = 0 ∧ nb3 op = 0 ∧ nb4 op = 0) :=
      fun c => h (Or.inl c)
    have k2 : ¬(nb1 op = 0 ∧ nb2 op = 0 ∧ nb3 op = 0xE ∧ nb4 op = 0) :=
      fun c => h (Or.inr (Or.inl c))
    have k3 : ¬(nb1 op = 0 ∧ nb2 op = 0 ∧ nb3 op = 0xE ∧ nb4 op = 0xE) :=
      fun c => h (Or.inr (Or.inr (Or.inl c)))
    rw [h0] at k1 k2 k3
    rw [h0, if_neg k1, if_neg k2, if_neg k3]
    rfl
  by_cases hv1 : nb1 op = 1
  · exact absurd (Or.inr (Or.inr (Or.inr (Or.inl hv1)))) h
  by_cases hv2 : nb1 op = 2
  · exact absurd (Or.inr (Or.inr (Or.inr (Or.inr (Or.inl hv2))))) h
  by_cases hv3 : nb1 op = 3
  · exact absurd (Or.inr (Or.inr (Or.inr (Or.inr (Or.inr (Or.inl hv3)))))) h
  by_cases hv4 : nb1 op = 4
  · exact absurd (Or.inr (Or.inr (Or.inr (Or.inr (Or.inr (Or.inr (Or.inl hv4))))))) h
  by_cases hv5 : nb1 op = 5
  · exact absurd (Or.inr (Or.inr (Or.inr (Or.inr (Or.inr (Or.inr (Or.inr (Or.inl hv5)))))))) h
  by_cases hv6 : nb1 op = 6
  · exact absurd (Or.inr (Or.inr (Or.inr (Or.inr (Or.inr (Or.inr (Or.inr (Or.inr (Or.inl hv6))))))))) h
  by_cases hv7 : nb1 op = 7
  · exact absurd (Or.inr (Or.inr (Or.inr (Or.inr (Or.inr (Or.inr (Or.inr (Or.inr (Or.inr (Or.inl hv7)))))))))) h
  by_cases hv8 : nb1 op = 8
  · have k8 : ¬(nb1 op = 8 ∧ (nb4 op = 0 ∨ nb4 op = 1 ∨ nb4 op = 2 ∨ nb4 op = 3 ∨
        nb4 op = 4 ∨ nb4 op = 5 ∨ nb4 op = 6 ∨ nb4 op = 7 ∨ nb4 op = 0xE)) :=
      fun c => h (Or.inr (Or.inr (Or.inr (Or.inr (Or.inr (Or.inr (Or.inr (Or.inr
        (Or.inr (Or.inr (Or.inl c)))))))))))
    rw [hv8] at k8
    rw [hv8,
      if_neg (show ¬((8:Nat) = 8 ∧ nb4 op = 0) from fun c => k8 ⟨c.1, Or.inl c.2⟩),
      if_neg (show ¬((8:Nat) = 8 ∧ nb4 op = 1) from fun c => k8 ⟨c.1, Or.inr (Or.inl c.2)⟩),
      if_neg (show ¬((8:Nat) = 8 ∧ nb4 op = 2) from fun c => k8 ⟨c.1, Or.inr (Or.inr (Or.inl c.2))⟩),
      if_neg (show ¬((8:Nat) = 8 ∧ nb4 op = 3) from fun c => k8 ⟨c.1, Or.inr (Or.inr (Or.inr (Or.inl c.2)))⟩),
      if_neg (show ¬((8:Nat) = 8 ∧ nb4 op = 4) from fun c => k8 ⟨c.1, Or.inr (Or.inr (Or.inr (Or.inr (Or.inl c.2))))⟩),
      if_neg (show ¬((8:Nat) = 8 ∧ nb4 op = 5) from fun c => k8 ⟨c.1, Or.inr (Or.inr (Or.inr (Or.inr (Or.inr (Or.inl c.2)))))⟩),
      if_neg (show ¬((8:Nat) = 8 ∧ nb4 op = 6) from fun c => k8 ⟨c.1, Or.inr (Or.inr (Or.inr (Or.inr (Or.inr (Or.inr (Or.inl c.2))))))⟩),
      if_neg (show ¬((8:Nat) = 8 ∧ nb4 op = 7) from fun c => k8 ⟨c.1, Or.inr (Or.inr (Or.inr (Or.inr (Or.inr (Or.inr (Or.inr (Or.inl c.2)))))))⟩),
      if_neg (show ¬((8:Nat) = 8 ∧ nb4 op = 0xE) from fun c => k8 ⟨c.1, Or.inr (Or.inr (Or.inr (Or.inr (Or.inr (Or.inr (Or.inr (Or.inr c.2)))))))⟩)]
    rfl
  by_cases hv9 : nb1 op = 9
  · have k9 : ¬(nb1 op = 9 ∧ nb4 op = 0) :=
      fun c => h (Or.inr (Or.inr (Or.inr (Or.inr (Or.inr (Or.inr (Or.inr (Or.inr
        (Or.inr (Or.inr (Or.inr (Or.inl c))))))))))))
    rw [hv9] at k9
    rw [hv9, if_neg k9]
    rfl
  by_cases hvA : nb1 op = 0xA
  · exact absurd (Or.inr (Or.inr (Or.inr (Or.inr (Or.inr (Or.inr (Or.inr (Or.inr
      (Or.inr (Or.inr (Or.inr (Or.inr (Or.inl hvA))))))))))))) h
  by_cases hvB : nb1 op = 0xB
  · exact absurd (Or.inr (Or.inr (Or.inr (Or.inr (Or.inr (Or.inr (Or.inr (Or.inr
      (Or.inr (Or.inr (Or.inr (Or.inr (Or.inr (Or.inl hvB)))))))))))))) h
  by_cases hvC : nb1 op = 0xC
  · exact absurd (Or.inr (Or.inr (Or.inr (Or.inr (Or.inr (Or.inr (Or.inr (Or.inr
      (Or.inr (Or.inr (Or.inr (Or.inr (Or.inr (Or.inr (Or.inl hvC))))))))))))))) h
  by_cases hvD : nb1 op = 0xD
  · exact absurd (Or.inr (Or.inr (Or.inr (Or.inr (Or.inr (Or.inr (Or.inr (Or.inr
      (Or.inr (Or.inr (Or.inr (Or.inr (Or.inr (Or.inr (Or.inr (Or.inl hvD)))))))))))))))) h
  by_cases hvE : nb1 op = 0xE
  · have kE1 : ¬(nb1 op = 0xE ∧ nb3 op = 9 ∧ nb4 op = 0xE) :=
      fun c => h (Or.inr (Or.inr (Or.inr (Or.inr (Or.inr (Or.inr (Or.inr (Or.inr
        (Or.inr (Or.inr (Or.inr (Or.inr (Or.inr (Or.inr (Or.inr (Or.inr (Or.inl c)))))))))))))))))
    have kE2 : ¬(nb1 op = 0xE ∧ nb3 op = 0xA ∧ nb4 op = 1) :=
      fun c => h (Or.inr (Or.inr (Or.inr (Or.inr (Or.inr (Or.inr (Or.inr (Or.inr
        (Or.inr (Or.inr (Or.inr (Or.inr (Or.inr (Or.inr (Or.inr (Or.inr (Or.inr (Or.inl c))))))))))))))))))
    rw [hvE] at kE1 kE2
    rw [hvE, if_neg kE1, if_neg kE2]
    rfl
  by_cases hvF : nb1 op = 0xF
  · have kF : ¬(nb1 op = 0xF ∧ ((nb3 op = 0 ∧ nb4 op = 7) ∨ (nb3 op = 0 ∧ nb4 op = 0xA) ∨
        (nb3 op = 1 ∧ nb4 op = 5) ∨ (nb3 op = 1 ∧ nb4 op = 8) ∨
        (nb3 op = 1 ∧ nb4 op = 0xE) ∨ (nb3 op = 2 ∧ nb4 op = 9) ∨
        (nb3 op = 3 ∧ nb4 op = 3) ∨ (nb3 op = 5 ∧ nb4 op = 5) ∨
        (nb3 op = 6 ∧ nb4 op = 5))) :=
      fun c => h (Or.inr (Or.inr (Or.inr (Or.inr (Or.inr (Or.inr (Or.inr (Or.inr
        (Or.inr (Or.inr (Or.inr (Or.inr (Or.inr (Or.inr (Or.inr (Or.inr (Or.inr (Or.inr c))))))))))))))))))
    rw [hvF] at kF
    rw [hvF,
      if_neg (show ¬((15:Nat) = 15 ∧ nb3 op = 0 ∧ nb4 op = 7) from fun c => kF ⟨c.1, Or.inl c.2⟩),
      if_neg (show ¬((15:Nat) = 15 ∧ nb3 op = 0 ∧ nb4 op = 0xA) from fun c => kF ⟨c.1, Or.inr (Or.inl c.2)⟩),
      if_neg (show ¬((15:Nat) = 15 ∧ nb3 op = 1 ∧ nb4 op = 5) from fun c => kF ⟨c.1, Or.inr (Or.inr (Or.inl c.2))⟩),
      if_neg (show ¬((15:Nat) = 15 ∧ nb3 op = 1 ∧ nb4 op = 8) from fun c => kF ⟨c.1, Or.inr (Or.inr (Or.inr (Or.inl c.2)))⟩),
      if_neg (show ¬((15:Nat) = 15 ∧ nb3 op = 1 ∧ nb4 op = 0xE) from fun c => kF ⟨c.1, Or.inr (Or.inr (Or.inr (Or.inr (Or.inl c.2))))⟩),
      if_neg (show ¬((15:Nat) = 15 ∧ nb3 op = 2 ∧ nb4 op = 9) from fun c => kF ⟨c.1, Or.inr (Or.inr (Or.inr (Or.inr (Or.inr (Or.inl c.2)))))⟩),
      if_neg (show ¬((15:Nat) = 15 ∧ nb3 op = 3 ∧ nb4 op = 3) from fun c => kF ⟨c.1, Or.inr (Or.inr (Or.inr (Or.inr (Or.inr (Or.inr (Or.inl c.2))))))⟩),
      if_neg (show ¬((15:Nat) = 15 ∧ nb3 op = 5 ∧ nb4 op = 5) from fun c => kF ⟨c.1, Or.inr (Or.inr (Or.inr (Or.inr (Or.inr (Or.inr (Or.inr (Or.inl c.2)))))))⟩),
      if_neg (show ¬((15:Nat) = 15 ∧ nb3 op = 6 ∧ nb4 op = 5) from fun c => kF ⟨c.1, Or.inr (Or.inr (Or.inr (Or.inr (Or.inr (Or.inr (Or.inr (Or.inr c.2)))))))⟩)]
    rfl
  exfalso
  clear h
  omega

/-- C1 (amended): every opcode whose nibble pattern matches none of the
dispatch arms of the code's `match` (`isImplemented`) makes `step()` a fatal
fault, never a no-op.  (The code's fifth-row arm is `(5,_,_,_)`: it accepts
any low nibble, so opcodes 5XYk with k ≠ 0 are executed as skip-if-equal
rather than faulting; see the counterexample.) -/
theorem clock_unimplemented_faults (s s1 : Chip8) (rnd op : Nat)
    (hf : s.fetch = some (s1, op)) (h : ¬ isImplemented op) :
    s.clock rnd = none := by
  unfold Chip8.clock
  rw [hf]
  exact execute_unimplemented s1 rnd op h

/-- State whose program holds the single (unimplemented) opcode 0x0001. -/
def sUnimp : Chip8 := { Chip8.init with ram := Chip8.init.ram.set 0x201 1 }

theorem clock_unimplemented_faults_witness :
    Chip8.clock sUnimp 0 = none :=
  clock_unimplemented_faults sUnimp { sUnimp with pc := 514 } 0 1
    (by
      have ha : sUnimp.ram[(512 : Nat)]? = some 0 := by
        show (Chip8.init.ram.set 0x201 1)[(512 : Nat)]? = some 0
        rw [List.getElem?_set_ne (by decide), init_ram_getElem 512 (by omega) (by omega)]
      have hb : sUnimp.ram[(513 : Nat)]? = some 1 := by
        show (Chip8.init.ram.set 0x201 1)[(513 : Nat)]? = some 1
        rw [List.getElem?_set_self (by rw [init_ram_length]; omega)]
      exact fetch_eq sUnimp ha hb)
    (by decide)

/-- State whose program holds the single opcode 0x5011 (pattern 5,0,1,1). -/
def sFive : Chip8 := { Chip8.init with ram := (Chip8.init.ram.set 0x200 0x50).set 0x201 0x11 }

/-- C1 counterexample: opcode 0x5011 matches none of the 35 spec table rows
(its pattern 5,0,1,1 is not of the form 5,X,Y,0), yet `step()` on it is not a
fault: it executes skip-if-equal (V0 == V1 here, so the program counter skips
to 0x204). -/
theorem clock_5XY1_executes :
    ¬ specOpcodeListed 0x5011 ∧
      Chip8.clock sFive 0 = some { sFive with pc := 0x204 } := by
  refine ⟨by decide, ?_⟩
  have ha : sFive.ram[(512 : Nat)]? = some 0x50 := by
    show ((Chip8.init.ram.set 0x200 0x50).set 0x201 0x11)[(512 : Nat)]? = some 0x50
    rw [List.getElem?_set_ne (by decide),
      List.getElem?_set_self (by rw [init_ram_length]; omega)]
  have hb : sFive.ram[(513 : Nat)]? = some 0x11 := by
    show ((Chip8.init.ram.set 0x200 0x50).set 0x201 0x11)[(513 : Nat)]? = some 0x11
    rw [List.getElem?_set_self (by rw [List.length_set, init_ram_length]; omega)]
  unfold Chip8.clock
  rw [fetch_eq sFive ha hb]
  rfl

/-! ### C10: determinism away from the random instruction -/

theorem execute_rand_irrelevant (s : Chip8) (r1 r2 op : Nat) (h : nb1 op ≠ 0xC) :
    s.execute r1 op = s.execute r2 op := by
  have h16 : nb1 op < 16 := Nat.mod_lt _ (by norm_num)
  unfold Chip8.execute
  by_cases h0 : nb1 op = 0
  · rw [h0]; rfl
  by_cases h1 : nb1 op = 1
  · rw [h1]; rfl
  by_cases h2 : nb1 op = 2
  · rw [h2]; rfl
  by_cases h3 : nb1 op = 3
  · rw [h3]; rfl
  by_cases h4 : nb1 op = 4
  · rw [h4]; rfl
  by_cases h5 : nb1 op = 5
  · rw [h5]; rfl
  by_cases h6 : nb1 op = 6
  · rw [h6]; rfl
  by_cases h7 : nb1 op = 7
  · rw [h7]; rfl
  by_cases h8 : nb1 op = 8
  · rw [h8]; rfl
  by_cases h9 : nb1 op = 9
  · rw [h9]; rfl
  by_cases hA : nb1 op = 10
  · rw [hA]; rfl
  by_cases hB : nb1 op = 11
  · rw [hB]; rfl
  by_cases hD : nb1 op = 13
  · rw [hD]; rfl
  by_cases hE : nb1 op = 14
  · rw [hE]; rfl
  by_cases hF : nb1 op = 15
  · rw [hF]; rfl
  exfalso; omega

/-- C10: `step()` is deterministic for every opcode whose top nibble is not
0xC: from one state, two executions (with arbitrary random-oracle bytes)
produce identical machine states in every component. -/
theorem clock_deterministic (s s1 : Chip8) (r1 r2 op : Nat)
    (hf : s.fetch = some (s1, op)) (h : nb1 op ≠ 0xC) :
    s.clock r1 = s.clock r2 := by
  unfold Chip8.clock
  rw [hf]
  exact execute_rand_irrelevant s1 r1 r2 op h

theorem clock_deterministic_witness :
    Chip8.clock Chip8.init 3 = Chip8.clock Chip8.init 200 :=
  clock_deterministic Chip8.init { Chip8.init with pc := 514 } 3 200 0
    (fetch_eq Chip8.init (init_ram_getElem 512 (by omega) (by omega))
      (init_ram_getElem 513 (by omega) (by omega)))
    (by decide)

/-! ### Nibble bounds and array-access helpers -/

theorem nb2_lt (op : Nat) : nb2 op < 16 := Nat.mod_lt _ (by norm_num)

theorem nb3_lt (op : Nat) : nb3 op < 16 := Nat.mod_lt _ (by norm_num)

theorem nb4_lt (op : Nat) : nb4 op < 16 := Nat.mod_lt _ (by norm_num)

theorem getD_set_self {α : Type} {l : List α} {i : Nat} {a d : α} (h : i < l.length) :
    (l.set i a)[i]?.getD d = a := by
  rw [List.getElem?_set_self h]; rfl

theorem getD_set_ne {α : Type} {l : List α} {i j : Nat} {a d : α} (h : i ≠ j) :
    (l.set i a)[j]?.getD d = l[j]?.getD d := by
  rw [List.getElem?_set_ne h]

/-! ### Dispatch: reaching a specific arm of `execute` -/

theorem execute_8XY4_eq (s : Chip8) (rnd op : Nat) (h1 : nb1 op = 8) (h4 : nb4 op = 4) :
    s.execute rnd op = some { s with v_regi := (s.v_regi.set (nb2 op) ((s.v_regi[nb2 op]?.getD 0 + s.v_regi[nb3 op]?.getD 0) % 256)).set 0xF (if 255 < s.v_regi[nb2 op]?.getD 0 + s.v_regi[nb3 op]?.getD 0 then 1 else 0) } := by
  unfold Chip8.execute
  rw [h1, h4]
  rfl

theorem execute_8XY6_eq (s : Chip8) (rnd op : Nat) (h1 : nb1 op = 8) (h4 : nb4 op = 6) :
    s.execute rnd op = some { s with v_regi := (s.v_regi.set (nb2 op) (s.v_regi[nb2 op]?.getD 0 / 2)).set 0xF (s.v_regi[nb2 op]?.getD 0 % 2) } := by
  unfold Chip8.execute
  rw [h1, h4]
  rfl

/-! ### C2: add with carry -/

/-- C2 (amended): executing 8XY4 always leaves the carry in VF (1 exactly
when VX + VY > 255), and for X ≠ 0xF the final VX is (VX + VY) mod 256.
When X = 0xF the flag write, performed second, overwrites the wrapped sum,
so "VX" ends up holding the carry instead; see the counterexample. -/
theorem add_with_carry_flag (s : Chip8) (rnd op : Nat) (hwf : WF s)
    (h1 : nb1 op = 8) (h4 : nb4 op = 4) :
    ∃ s1, s.execute rnd op = some s1 ∧
      s1.v_regi[0xF]?.getD 0 =
        (if 255 < s.v_regi[nb2 op]?.getD 0 + s.v_regi[nb3 op]?.getD 0 then 1 else 0) ∧
      (nb2 op ≠ 0xF →
        s1.v_regi[nb2 op]?.getD 0 =
          (s.v_regi[nb2 op]?.getD 0 + s.v_regi[nb3 op]?.getD 0) % 256) := by
  refine ⟨_, execute_8XY4_eq s rnd op h1 h4, ?_, ?_⟩
  · apply getD_set_self
    rw [List.length_set, hwf.2.1]
    decide
  · intro hX
    have hne : (0xF : Nat) ≠ nb2 op := fun e => hX e.symm
    rw [getD_set_ne hne]
    apply getD_set_self
    rw [hwf.2.1]
    exact nb2_lt op

/-- State with V15 = 1 and V0 = 1. -/
def sAddF : Chip8 := { Chip8.init with v_regi := (Chip8.init.v_regi.set 15 1).set 0 1 }

/-- C2 counterexample: with X = 0xF (opcode 0x8F04, VX = V15 = 1, VY = V0 = 1)
the final value of VX is the carry flag 0, not (1 + 1) mod 256 = 2: the claim
is false for X = 0xF. -/
theorem add_with_carry_cex :
    Chip8.execute sAddF 0 0x8F04 =
      some { sAddF with v_regi := (sAddF.v_regi.set 15 2).set 15 0 } ∧
    ((sAddF.v_regi.set 15 2).set 15 0)[15]?.getD 0 ≠
      (sAddF.v_regi[15]?.getD 0 + sAddF.v_regi[0]?.getD 0) % 256 :=
  ⟨rfl, by decide⟩

/-- State with V0 = 200 and V1 = 100. -/
def sAddW : Chip8 := { Chip8.init with v_regi := (Chip8.init.v_regi.set 0 200).set 1 100 }

theorem add_with_carry_flag_witness :
    ∃ s1, Chip8.execute sAddW 0 0x8014 = some s1 ∧
      s1.v_regi[0xF]?.getD 0 =
        (if 255 < sAddW.v_regi[nb2 0x8014]?.getD 0 + sAddW.v_regi[nb3 0x8014]?.getD 0
         then 1 else 0) ∧
      (nb2 0x8014 ≠ 0xF →
        s1.v_regi[nb2 0x8014]?.getD 0 =
          (sAddW.v_regi[nb2 0x8014]?.getD 0 + sAddW.v_regi[nb3 0x8014]?.getD 0) % 256) :=
  add_with_carry_flag sAddW 0 0x8014
    (WF_set_v _ (WF_set_v _ WF_init 0 200 (by norm_num)) 1 100 (by norm_num))
    (by decide) (by decide)

/-! ### C5: shift right -/

/-- C5 (amended): executing 8X_6 leaves the pre-shift least-significant bit
of VX in VF in every case; for X ≠ 0xF the final register file equals the one
obtained by assigning VF before the shift, as the spec orders the two writes.
For X = 0xF the code's actual order (shift first, flag write second) makes
the flag write win: the final V15 is the pre-shift least-significant bit, not
the shifted value; see the counterexample. -/
theorem shift_right_order (s : Chip8) (rnd op : Nat) (hwf : WF s)
    (h1 : nb1 op = 8) (h4 : nb4 op = 6) :
    ∃ s1, s.execute rnd op = some s1 ∧
      s1.v_regi[0xF]?.getD 0 = s.v_regi[nb2 op]?.getD 0 % 2 ∧
      (nb2 op ≠ 0xF →
        s1.v_regi = (s.v_regi.set 0xF (s.v_regi[nb2 op]?.getD 0 % 2)).set (nb2 op)
          (s.v_regi[nb2 op]?.getD 0 / 2)) ∧
      (nb2 op = 0xF →
        s1.v_regi = s.v_regi.set 0xF (s.v_regi[nb2 op]?.getD 0 % 2)) := by
  refine ⟨_, execute_8XY6_eq s rnd op h1 h4, ?_, ?_, ?_⟩
  · apply getD_set_self
    rw [List.length_set, hwf.2.1]
    decide
  · intro hX
    exact List.set_comm _ _ _ hX
  · intro hX
    rw [hX]
    exact List.set_set _ _ _ _

/-- State with V15 = 2. -/
def sShrF : Chip8 := { Chip8.init with v_regi := Chip8.init.v_regi.set 15 2 }

/-- C5 counterexample: with X = 0xF (opcode 0x8F06, V15 = 2) the code leaves
V15 = 0 (the pre-shift least-significant bit), while performing the VF
assignment before the shift would leave V15 = 1 (= 2 >> 1): the final state
is not the one the claimed ordering produces. -/
theorem shift_right_order_cex :
    Chip8.execute sShrF 0 0x8F06 =
      some { sShrF with v_regi := (sShrF.v_regi.set 15 1).set 15 0 } ∧
    ((sShrF.v_regi.set 15 1).set 15 0)[15]?.getD 0 = 0 ∧
    ((sShrF.v_regi.set 15 (sShrF.v_regi[15]?.getD 0 % 2)).set 15
        (sShrF.v_regi[15]?.getD 0 / 2))[15]?.getD 0 = 1 :=
  ⟨rfl, by decide, by decide⟩

/-- State with V2 = 5. -/
def sShrW : Chip8 := { Chip8.init with v_regi := Chip8.init.v_regi.set 2 5 }

theorem shift_right_order_witness :
    ∃ s1, Chip8.execute sShrW 0 0x8206 = some s1 ∧
      s1.v_regi[0xF]?.getD 0 = sShrW.v_regi[nb2 0x8206]?.getD 0 % 2 ∧
      (nb2 0x8206 ≠ 0xF →
        s1.v_regi = (sShrW.v_regi.set 0xF (sShrW.v_regi[nb2 0x8206]?.getD 0 % 2)).set
          (nb2 0x8206) (sShrW.v_regi[nb2 0x8206]?.getD 0 / 2)) ∧
      (nb2 0x8206 = 0xF →
        s1.v_regi = sShrW.v_regi.set 0xF (sShrW.v_regi[nb2 0x8206]?.getD 0 % 2)) :=
  shift_right_order sShrW 0 0x8206 (WF_set_v _ WF_init 2 5 (by norm_num))
    (by decide) (by decide)

/-- Correctness of the f32 BCD pipeline on the whole u8 range: the rounded
divisions, exact fmod and truncating casts produce exactly the three decimal
digits. -/
theorem bcdOf_digits : ∀ v : Nat, v < 256 → bcdOf v = (v / 100, v / 10 % 10, v % 10) := by
  decide

theorem execute_FX33_eq (s : Chip8) (rnd op : Nat)
    (h1 : nb1 op = 0xF) (h3 : nb3 op = 3) (h4 : nb4 op = 3)
    (b1 : s.i_regi < s.ram.length) (b2 : s.i_regi + 1 < s.ram.length)
    (b3 : s.i_regi + 2 < s.ram.length) :
    s.execute rnd op = some { s with ram := ((s.ram.set s.i_regi (bcdOf (s.v_regi[nb2 op]?.getD 0)).1).set (s.i_regi + 1) (bcdOf (s.v_regi[nb2 op]?.getD 0)).2.1).set (s.i_regi + 2) (bcdOf (s.v_regi[nb2 op]?.getD 0)).2.2 } := by
  have e1 : setChecked s.ram s.i_regi (bcdOf (s.v_regi[nb2 op]?.getD 0)).1 =
      some (s.ram.set s.i_regi (bcdOf (s.v_regi[nb2 op]?.getD 0)).1) := by
    unfold setChecked
    rw [if_pos b1]
  have e2 : setChecked (s.ram.set s.i_regi (bcdOf (s.v_regi[nb2 op]?.getD 0)).1) (s.i_regi + 1) (bcdOf (s.v_regi[nb2 op]?.getD 0)).2.1 = some ((s.ram.set s.i_regi (bcdOf (s.v_regi[nb2 op]?.getD 0)).1).set (s.i_regi + 1) (bcdOf (s.v_regi[nb2 op]?.getD 0)).2.1) := by
    unfold setChecked
    rw [if_pos (show s.i_regi + 1 < (s.ram.set s.i_regi (bcdOf (s.v_regi[nb2 op]?.getD 0)).1).length from by rw [List.length_set]; exact b2)]
  have e3 : setChecked ((s.ram.set s.i_regi (bcdOf (s.v_regi[nb2 op]?.getD 0)).1).set (s.i_regi + 1) (bcdOf (s.v_regi[nb2 op]?.getD 0)).2.1) (s.i_regi + 2) (bcdOf (s.v_regi[nb2 op]?.getD 0)).2.2 = some (((s.ram.set s.i_regi (bcdOf (s.v_regi[nb2 op]?.getD 0)).1).set (s.i_regi + 1) (bcdOf (s.v_regi[nb2 op]?.getD 0)).2.1).set (s.i_regi + 2) (bcdOf (s.v_regi[nb2 op]?.getD 0)).2.2) := by
    unfold setChecked
    rw [if_pos (show s.i_regi + 2 < ((s.ram.set s.i_regi (bcdOf (s.v_regi[nb2 op]?.getD 0)).1).set (s.i_regi + 1) (bcdOf (s.v_regi[nb2 op]?.getD 0)).2.1).length from by rw [List.length_set, List.length_set]; exact b3)]
  unfold Chip8.execute
  rw [h1, h3, h4]
  simp only [e1, e2, e3]
  rfl

/-- C7: the BCD instruction FX33 writes the hundreds digit of VX to
memory[I], the tens digit to memory[I+1] and the ones digit to memory[I+2],
for every byte value of VX. -/
theorem bcd_writes_digits (s : Chip8) (rnd op : Nat) (hwf : WF s)
    (h1 : nb1 op = 0xF) (h3 : nb3 op = 3) (h4 : nb4 op = 3)
    (hI : s.i_regi + 2 < RAM_SIZE) :
    ∃ s1, s.execute rnd op = some s1 ∧
      s1.ram[s.i_regi]?.getD 0 = s.v_regi[nb2 op]?.getD 0 / 100 ∧
      s1.ram[s.i_regi + 1]?.getD 0 = s.v_regi[nb2 op]?.getD 0 / 10 % 10 ∧
      s1.ram[s.i_regi + 2]?.getD 0 = s.v_regi[nb2 op]?.getD 0 % 10 := by
  have b1 : s.i_regi < s.ram.length := by rw [hwf.1]; omega
  have b2 : s.i_regi + 1 < s.ram.length := by rw [hwf.1]; omega
  have b3 : s.i_regi + 2 < s.ram.length := by rw [hwf.1]; omega
  have hX : nb2 op < s.v_regi.length := by rw [hwf.2.1]; exact nb2_lt op
  have hvx : s.v_regi[nb2 op]?.getD 0 < 256 := by
    rw [List.getElem?_eq_getElem hX]
    exact hwf.2.2.2.2.2.2 _ (List.getElem_mem hX)
  have hb := bcdOf_digits _ hvx
  refine ⟨_, execute_FX33_eq s rnd op h1 h3 h4 b1 b2 b3, ?_, ?_, ?_⟩
  · rw [getD_set_ne (by omega), getD_set_ne (by omega), getD_set_self b1, hb]
  · rw [getD_set_ne (by omega),
      getD_set_self (by rw [List.length_set]; exact b2), hb]
  · rw [getD_set_self (by rw [List.length_set, List.length_set]; exact b3), hb]

/-- State with V0 = 255 and I = 0x300. -/
def sBcd : Chip8 := { Chip8.init with v_regi := Chip8.init.v_regi.set 0 255, i_regi := 0x300 }

theorem bcd_writes_digits_witness :
    ∃ s1, Chip8.execute sBcd 0 0xF033 = some s1 ∧
      s1.ram[sBcd.i_regi]?.getD 0 = sBcd.v_regi[nb2 0xF033]?.getD 0 / 100 ∧
      s1.ram[sBcd.i_regi + 1]?.getD 0 = sBcd.v_regi[nb2 0xF033]?.getD 0 / 10 % 10 ∧
      s1.ram[sBcd.i_regi + 2]?.getD 0 = sBcd.v_regi[nb2 0xF033]?.getD 0 % 10 :=
  bcd_writes_digits sBcd 0 0xF033 (WF_set_v _ WF_init 0 255 (by norm_num))
    (by decide) (by decide) (by decide) (by decide)

/-! ### C6: inclusive register block transfers -/

theorem storeRegs_spec (v : List Nat) (i : Nat) (ram : List Nat) (x : Nat)
    (hb : ∀ k, k ≤ x → i + k < ram.length) :
    ∃ r, storeRegs v i ram x = some r ∧ r.length = ram.length ∧
      (∀ k, k ≤ x → r[i + k]?.getD 0 = v[k]?.getD 0) ∧
      (∀ j, j < i ∨ i + x < j → r[j]? = ram[j]?) := by
  induction x with
  | zero =>
    have hlt : i < ram.length := by have := hb 0 (Nat.le_refl 0); omega
    refine ⟨ram.set i (v[0]?.getD 0), ?_, List.length_set _ _ _, ?_, ?_⟩
    · show setChecked ram i (v[0]?.getD 0) = _
      unfold setChecked
      rw [if_pos hlt]
    · intro k hk
      have hk0 : k = 0 := Nat.le_zero.mp hk
      subst hk0
      rw [Nat.add_zero]
      exact getD_set_self hlt
    · intro j hj
      apply List.getElem?_set_ne
      omega
  | succ n ih =>
    obtain ⟨r, hr, hlen, hin, hout⟩ := ih (fun k hk => hb k (Nat.le_trans hk (Nat.le_succ n)))
    have hlt : i + (n + 1) < r.length := by rw [hlen]; exact hb (n + 1) (Nat.le_refl _)
    refine ⟨r.set (i + (n + 1)) (v[n + 1]?.getD 0), ?_, ?_, ?_, ?_⟩
    · show (match storeRegs v i ram n with
        | some r1 => setChecked r1 (i + (n + 1)) (v[n + 1]?.getD 0)
        | none => none) = _
      rw [hr]
      show setChecked r (i + (n + 1)) (v[n + 1]?.getD 0) = _
      unfold setChecked
      rw [if_pos hlt]
    · rw [List.length_set]; exact hlen
    · intro k hk
      rcases Nat.lt_or_ge k (n + 1) with hlt2 | hge
      · rw [getD_set_ne (by omega)]
        exact hin k (by omega)
      · have hk1 : k = n + 1 := by omega
        subst hk1
        exact getD_set_self hlt
    · intro j hj
      rw [List.getElem?_set_ne (by omega)]
      exact hout j (by omega)

theorem loadRegs_spec (ram : List Nat) (i : Nat) (v : List Nat) (x : Nat)
    (hb : ∀ k, k ≤ x → i + k < ram.length) (hx : x < v.length) :
    ∃ v1, loadRegs ram i v x = some v1 ∧ v1.length = v.length ∧
      (∀ k, k ≤ x → v1[k]?.getD 0 = ram[i + k]?.getD 0) ∧
      (∀ k, x < k → v1[k]? = v[k]?) := by
  induction x with
  | zero =>
    have hlt : i < ram.length := by have := hb 0 (Nat.le_refl 0); omega
    refine ⟨v.set 0 (ram[i]?.getD 0), ?_, List.length_set _ _ _, ?_, ?_⟩
    · show (match ram[i]? with | some b => some (v.set 0 b) | none => none) = _
      rw [List.getElem?_eq_getElem hlt]
      rfl
    · intro k hk
      have hk0 : k = 0 := Nat.le_zero.mp hk
      subst hk0
      rw [Nat.add_zero]
      exact getD_set_self (by omega)
    · intro k hk
      apply List.getElem?_set_ne
      omega
  | succ n ih =>
    obtain ⟨v1, hv1, hlen, hin, hout⟩ :=
      ih (fun k hk => hb k (Nat.le_trans hk (Nat.le_succ n))) (by omega)
    have hlt : i + (n + 1) < ram.length := hb (n + 1) (Nat.le_refl _)
    refine ⟨v1.set (n + 1) (ram[i + (n + 1)]?.getD 0), ?_, ?_, ?_, ?_⟩
    · show (match loadRegs ram i v n with
        | some w => (match ram[i + (n + 1)]? with
          | some b => some (w.set (n + 1) b)
          | none => none)
        | none => none) = _
      rw [hv1, List.getElem?_eq_getElem hlt]
      rfl
    · rw [List.length_set]; exact hlen
    · intro k hk
      rcases Nat.lt_or_ge k (n + 1) with hlt2 | hge
      · rw [getD_set_ne (by omega)]
        exact hin k (by omega)
      · have hk1 : k = n + 1 := by omega
        subst hk1
        exact getD_set_self (by rw [hlen]; omega)
    · intro k hk
      rw [List.getElem?_set_ne (by omega)]
      exact hout k (by omega)

theorem execute_FX55_eq (s : Chip8) (rnd op : Nat)
    (h1 : nb1 op = 0xF) (h3 : nb3 op = 5) (h4 : nb4 op = 5) {r : List Nat}
    (hr : storeRegs s.v_regi s.i_regi s.ram (nb2 op) = some r) :
    s.execute rnd op = some { s with ram := r } := by
  unfold Chip8.execute
  rw [h1, h3, h4, hr]
  rfl

theorem execute_FX65_eq (s : Chip8) (rnd op : Nat)
    (h1 : nb1 op = 0xF) (h3 : nb3 op = 6) (h4 : nb4 op = 5) {v1 : List Nat}
    (hv : loadRegs s.ram s.i_regi s.v_regi (nb2 op) = some v1) :
    s.execute rnd op = some { s with v_regi := v1 } := by
  unfold Chip8.execute
  rw [h1, h3, h4, hv]
  rfl

/-- C6: the block transfers are inclusive: FX55 stores exactly V0..VX into
memory[I..I+X] (memory outside that window is untouched), and FX65 loads
exactly memory[I..I+X] into V0..VX (registers above VX are untouched, and
memory is untouched). -/
theorem block_transfer_inclusive (s : Chip8) (rnd opS opL : Nat) (hwf : WF s)
    (hS1 : nb1 opS = 0xF) (hS3 : nb3 opS = 5) (hS4 : nb4 opS = 5)
    (hL1 : nb1 opL = 0xF) (hL3 : nb3 opL = 6) (hL4 : nb4 opL = 5)
    (hIS : s.i_regi + nb2 opS < RAM_SIZE) (hIL : s.i_regi + nb2 opL < RAM_SIZE) :
    (∃ s1, s.execute rnd opS = some s1 ∧ s1.v_regi = s.v_regi ∧
      (∀ k, k ≤ nb2 opS → s1.ram[s.i_regi + k]?.getD 0 = s.v_regi[k]?.getD 0) ∧
      (∀ j, j < s.i_regi ∨ s.i_regi + nb2 opS < j → s1.ram[j]? = s.ram[j]?)) ∧
    (∃ s2, s.execute rnd opL = some s2 ∧ s2.ram = s.ram ∧
      (∀ k, k ≤ nb2 opL → s2.v_regi[k]?.getD 0 = s.ram[s.i_regi + k]?.getD 0) ∧
      (∀ k, nb2 opL < k → s2.v_regi[k]? = s.v_regi[k]?)) := by
  constructor
  · obtain ⟨r, hr, hlen, hin, hout⟩ :=
      storeRegs_spec s.v_regi s.i_regi s.ram (nb2 opS) (fun k hk => by rw [hwf.1]; omega)
    exact ⟨_, execute_FX55_eq s rnd opS hS1 hS3 hS4 hr, rfl, hin, hout⟩
  · obtain ⟨v1, hv1, hlen, hin, hout⟩ :=
      loadRegs_spec s.ram s.i_regi s.v_regi (nb2 opL)
        (fun k hk => by rw [hwf.1]; omega)
        (by rw [hwf.2.1]; exact nb2_lt opL)
    exact ⟨_, execute_FX65_eq s rnd opL hL1 hL3 hL4 hv1, rfl, hin, hout⟩

/-- State with V0..V3 = 10,11,12,13 and I = 0x400. -/
def sBlk : Chip8 := { Chip8.init with v_regi := (((Chip8.init.v_regi.set 0 10).set 1 11).set 2 12).set 3 13, i_regi := 0x400 }

theorem block_transfer_inclusive_witness :
    (∃ s1, Chip8.execute sBlk 0 0xF355 = some s1 ∧ s1.v_regi = sBlk.v_regi ∧
      (∀ k, k ≤ nb2 0xF355 → s1.ram[sBlk.i_regi + k]?.getD 0 = sBlk.v_regi[k]?.getD 0) ∧
      (∀ j, j < sBlk.i_regi ∨ sBlk.i_regi + nb2 0xF355 < j → s1.ram[j]? = sBlk.ram[j]?)) ∧
    (∃ s2, Chip8.execute sBlk 0 0xF365 = some s2 ∧ s2.ram = sBlk.ram ∧
      (∀ k, k ≤ nb2 0xF365 → s2.v_regi[k]?.getD 0 = sBlk.ram[sBlk.i_regi + k]?.getD 0) ∧
      (∀ k, nb2 0xF365 < k → s2.v_regi[k]? = sBlk.v_regi[k]?)) :=
  block_transfer_inclusive sBlk 0 0xF355 0xF365
    (WF_set_v _ (WF_set_v _ (WF_set_v _ (WF_set_v _ WF_init 0 10 (by norm_num))
      1 11 (by norm_num)) 2 12 (by norm_num)) 3 13 (by norm_num))
    (by decide) (by decide) (by decide)
    (by decide) (by decide) (by decide) (by decide) (by decide)

/-! ### first pressed key -/

theorem firstKeyAux_none (l : List Bool) :
    ∀ o, firstKeyAux l o = none ↔ ∀ b ∈ l, b = false := by
  induction l with
  | nil => intro o; simp [firstKeyAux]
  | cons k rest ih =>
    intro o
    cases hk : k with
    | true => simp [firstKeyAux]
    | false => simp [firstKeyAux, ih (o + 1)]

theorem firstKeyAux_lowest (l : List Bool) :
    ∀ o i, l[i]?.getD false = true → (∀ j, j < i → l[j]?.getD false = false) →
      firstKeyAux l o = some (o + i) := by
  induction l with
  | nil =>
    intro o i hi _
    simp at hi
  | cons k rest ih =>
    intro o i hi hlow
    cases hk : k with
    | true =>
      have hi0 : i = 0 := by
        by_contra hne
        have h0 := hlow 0 (Nat.pos_of_ne_zero hne)
        simp [hk] at h0
      subst hi0
      simp [firstKeyAux, hk]
    | false =>
      have hi0 : i ≠ 0 := by
        intro h0
        subst h0
        simp [hk] at hi
      obtain ⟨i1, rfl⟩ : ∃ i1, i = i1 + 1 := ⟨i - 1, by omega⟩
      rw [show firstKeyAux (false :: rest) o = firstKeyAux rest (o + 1) from rfl,
        show o + (i1 + 1) = (o + 1) + i1 by omega]
      apply ih
      · rw [← List.getElem?_cons_succ (a := k)]
        exact hi
      · intro j hj
        have := hlow (j + 1) (by omega)
        rw [List.getElem?_cons_succ] at this
        exact this

theorem execute_FX0A_key (s : Chip8) (rnd op : Nat)
    (h1 : nb1 op = 0xF) (h3 : nb3 op = 0) (h4 : nb4 op = 0xA) {i : Nat}
    (hk : firstKey s.keys = some i) :
    s.execute rnd op = some { s with v_regi := s.v_regi.set (nb2 op) i } := by
  unfold Chip8.execute
  rw [h1, h3, h4, hk]
  rfl

theorem execute_FX0A_nokey (s : Chip8) (rnd op : Nat)
    (h1 : nb1 op = 0xF) (h3 : nb3 op = 0) (h4 : nb4 op = 0xA)
    (hk : firstKey s.keys = none) :
    s.execute rnd op = some { s with pc := s.pc - 2 } := by
  unfold Chip8.execute
  rw [h1, h3, h4, hk]
  rfl

/-- C8: when the fetched opcode is FX0A, `step()` leaves the program counter
where it was (the fetch advance is undone) and the registers untouched if no
key is pressed; otherwise it writes the index of the lowest-numbered pressed
key into VX and lets the program counter advance by 2. -/
theorem wait_key_behavior (s s1 : Chip8) (rnd op : Nat) (hwf : WF s)
    (hf : s.fetch = some (s1, op))
    (h1 : nb1 op = 0xF) (h3 : nb3 op = 0) (h4 : nb4 op = 0xA) :
    ((∀ b ∈ s.keys, b = false) →
      ∃ s2, s.clock rnd = some s2 ∧ s2.pc = s.pc ∧ s2.v_regi = s.v_regi) ∧
    (∀ i, s.keys[i]?.getD false = true → (∀ j, j < i → s.keys[j]?.getD false = false) →
      ∃ s2, s.clock rnd = some s2 ∧ s2.pc = s.pc + 2 ∧
        s2.v_regi = s.v_regi.set (nb2 op) i) := by
  obtain ⟨hpc, hs1, hop⟩ := fetch_some hf
  have hRS : RAM_SIZE = 4096 := rfl
  rw [hwf.1] at hpc
  have hpc2 : (s.pc + 2) % 65536 = s.pc + 2 := by omega
  subst hs1
  constructor
  · intro hnone
    have hk : firstKey s.keys = none := (firstKeyAux_none s.keys 0).mpr hnone
    refine ⟨{ s with pc := (s.pc + 2) % 65536 - 2 }, ?_, ?_, rfl⟩
    · unfold Chip8.clock
      rw [hf]
      exact execute_FX0A_nokey _ rnd op h1 h3 h4 hk
    · show (s.pc + 2) % 65536 - 2 = s.pc
      omega
  · intro i hi hlow
    have hk : firstKey s.keys = some i := by
      have := firstKeyAux_lowest s.keys 0 i hi hlow
      rwa [Nat.zero_add] at this
    refine ⟨{ s with pc := (s.pc + 2) % 65536, v_regi := s.v_regi.set (nb2 op) i }, ?_, ?_, rfl⟩
    · unfold Chip8.clock
      rw [hf]
      exact execute_FX0A_key _ rnd op h1 h3 h4 hk
    · show (s.pc + 2) % 65536 = s.pc + 2
      omega

/-- State whose program holds the single opcode 0xF00A and no pressed key. -/
def sKeyW : Chip8 := { Chip8.init with ram := (Chip8.init.ram.set 0x200 0xF0).set 0x201 0x0A }

theorem wait_key_behavior_witness :
    ((∀ b ∈ sKeyW.keys, b = false) →
      ∃ s2, sKeyW.clock 0 = some s2 ∧ s2.pc = sKeyW.pc ∧ s2.v_regi = sKeyW.v_regi) ∧
    (∀ i, sKeyW.keys[i]?.getD false = true →
      (∀ j, j < i → sKeyW.keys[j]?.getD false = false) →
      ∃ s2, sKeyW.clock 0 = some s2 ∧ s2.pc = sKeyW.pc + 2 ∧
        s2.v_regi = sKeyW.v_regi.set (nb2 0xF00A) i) :=
  wait_key_behavior sKeyW { sKeyW with pc := 514 } 0 0xF00A
    (WF_set_ram _ (WF_set_ram _ WF_init 0x200 0xF0 (by norm_num)) 0x201 0x0A (by norm_num))
    (by
      have ha : sKeyW.ram[(512 : Nat)]? = some 0xF0 := by
        show ((Chip8.init.ram.set 0x200 0xF0).set 0x201 0x0A)[(512 : Nat)]? = some 0xF0
        rw [List.getElem?_set_ne (by decide),
          List.getElem?_set_self (by rw [init_ram_length]; omega)]
      have hb : sKeyW.ram[(513 : Nat)]? = some 0x0A := by
        show ((Chip8.init.ram.set 0x200 0xF0).set 0x201 0x0A)[(513 : Nat)]? = some 0x0A
        rw [List.getElem?_set_self (by rw [List.length_set, init_ram_length]; omega)]
      exact fetch_eq sKeyW ha hb)
    (by decide) (by decide) (by decide)


/-! ### The set of display cells a draw toggles -/

/-- Display indices toggled by one sprite row (the set bits of `pixels`,
wrapped as the draw loop wraps them). -/
def rowIdxs (pixels x0 yAbs : Nat) : List Nat :=
  (List.range 8).filterMap (fun xLine =>
    if pixels &&& (128 >>> xLine) ≠ 0 then
      some ((x0 + xLine) % SCREEN_WIDTH + SCREEN_WIDTH * (yAbs % SCREEN_HEIGHT))
    else none)

/-- Display indices toggled by the first `n` sprite rows. -/
def spriteIdxs (ram : List Nat) (i x0 y0 : Nat) : Nat → List Nat
  | 0 => []
  | n+1 => spriteIdxs ram i x0 y0 n ++ rowIdxs (ram[i + n]?.getD 0) x0 (y0 + n)

theorem foldl_filterMap_ite {β γ : Type} (P : Nat → Prop) [DecidablePred P] (g : Nat → γ)
    (step : β → γ → β) (l : List Nat) (b : β) :
    l.foldl (fun a x => if P x then step a (g x) else a) b =
      (l.filterMap (fun x => if P x then some (g x) else none)).foldl step b := by
  induction l generalizing b with
  | nil => rfl
  | cons x xs ih =>
    by_cases h : P x <;> simp [h, ih]

theorem drawRow_eq (pixels x0 yAbs : Nat) (acc : List Bool × Bool) :
    drawRow pixels x0 yAbs acc = (rowIdxs pixels x0 yAbs).foldl toggleStep acc := by
  unfold drawRow rowIdxs
  exact foldl_filterMap_ite (fun c => pixels &&& (128 >>> c) ≠ 0)
    (fun c => (x0 + c) % SCREEN_WIDTH + SCREEN_WIDTH * (yAbs % SCREEN_HEIGHT))
    toggleStep (List.range 8) acc

theorem bit_lt_8 {pixels c : Nat} (h : pixels &&& (128 >>> c) ≠ 0) : c < 8 := by
  by_contra hc
  apply h
  have h128 : (128 : Nat) >>> c = 0 := by
    rw [Nat.shiftRight_eq_div_pow]
    apply Nat.div_eq_of_lt
    calc (128:Nat) < 2 ^ 8 := by norm_num
    _ ≤ 2 ^ c := Nat.pow_le_pow_right (by norm_num) (by omega)
  rw [h128, Nat.and_zero]

theorem mem_rowIdxs {pixels x0 yAbs m : Nat} :
    m ∈ rowIdxs pixels x0 yAbs ↔
      ∃ c, c < 8 ∧ pixels &&& (128 >>> c) ≠ 0 ∧
        m = (x0 + c) % SCREEN_WIDTH + SCREEN_WIDTH * (yAbs % SCREEN_HEIGHT) := by
  unfold rowIdxs
  simp only [List.mem_filterMap, List.mem_range]
  constructor
  · rintro ⟨c, hc, hfc⟩
    by_cases h : pixels &&& (128 >>> c) ≠ 0
    · rw [if_pos h] at hfc
      simp only [Option.some.injEq] at hfc
      exact ⟨c, hc, h, hfc.symm⟩
    · rw [if_neg h] at hfc
      exact absurd hfc (by simp)
  · rintro ⟨c, hc, hb, rfl⟩
    exact ⟨c, hc, by rw [if_pos hb]⟩

theorem nodup_rowIdxs (pixels x0 yAbs : Nat) : (rowIdxs pixels x0 yAbs).Nodup := by
  unfold rowIdxs
  refine List.Nodup.filterMap ?_ (List.nodup_range 8)
  intro a a' b hb hb'
  by_cases ha : pixels &&& (128 >>> a) ≠ 0
  · rw [if_pos ha] at hb
    by_cases ha' : pixels &&& (128 >>> a') ≠ 0
    · rw [if_pos ha'] at hb'
      simp only [Option.mem_def, Option.some.injEq] at hb hb'
      have hlt := bit_lt_8 ha
      have hlt' := bit_lt_8 ha'
      rw [← hb'] at hb
      simp only [SCREEN_WIDTH, SCREEN_HEIGHT] at hb
      omega
    · rw [if_neg ha'] at hb'
      exact absurd hb' (by simp)
  · rw [if_neg ha] at hb
    exact absurd hb (by simp)

theorem mem_spriteIdxs {ram : List Nat} {i x0 y0 : Nat} :
    ∀ {n m}, m ∈ spriteIdxs ram i x0 y0 n ↔
      ∃ r, r < n ∧ m ∈ rowIdxs (ram[i + r]?.getD 0) x0 (y0 + r) := by
  intro n
  induction n with
  | zero => intro m; simp [spriteIdxs]
  | succ k ih =>
    intro m
    show m ∈ spriteIdxs ram i x0 y0 k ++ rowIdxs (ram[i + k]?.getD 0) x0 (y0 + k) ↔ _
    rw [List.mem_append]
    constructor
    · rintro (hm | hm)
      · obtain ⟨r, hr, hmr⟩ := ih.mp hm
        exact ⟨r, by omega, hmr⟩
      · exact ⟨k, by omega, hm⟩
    · rintro ⟨r, hr, hm⟩
      rcases Nat.lt_or_ge r k with h | h
      · exact Or.inl (ih.mpr ⟨r, h, hm⟩)
      · have hrk : r = k := by omega
        subst hrk
        exact Or.inr hm

theorem mem_spriteIdxs_lt {ram : List Nat} {i x0 y0 n m : Nat}
    (h : m ∈ spriteIdxs ram i x0 y0 n) : m < SCREEN_WIDTH * SCREEN_HEIGHT := by
  obtain ⟨r, _, hm⟩ := mem_spriteIdxs.mp h
  obtain ⟨c, _, _, rfl⟩ := mem_rowIdxs.mp hm
  have h1 : (x0 + c) % SCREEN_WIDTH < SCREEN_WIDTH := Nat.mod_lt _ (by decide)
  have h2 : (y0 + r) % SCREEN_HEIGHT < SCREEN_HEIGHT := Nat.mod_lt _ (by decide)
  simp only [SCREEN_WIDTH, SCREEN_HEIGHT] at h1 h2 ⊢
  omega

theorem nodup_spriteIdxs (ram : List Nat) (i x0 y0 : Nat) :
    ∀ n, n ≤ SCREEN_HEIGHT → (spriteIdxs ram i x0 y0 n).Nodup := by
  intro n
  induction n with
  | zero => intro _; simp [spriteIdxs]
  | succ k ih =>
    intro hk
    show (spriteIdxs ram i x0 y0 k ++ rowIdxs (ram[i + k]?.getD 0) x0 (y0 + k)).Nodup
    refine List.Nodup.append (ih (by omega)) (nodup_rowIdxs _ _ _) ?_
    intro m hm hm'
    obtain ⟨r, hr, hmr⟩ := mem_spriteIdxs.mp hm
    obtain ⟨c, hc, _, rfl⟩ := mem_rowIdxs.mp hmr
    obtain ⟨c', hc', _, heq⟩ := mem_rowIdxs.mp hm'
    have h1 : (x0 + c) % SCREEN_WIDTH < SCREEN_WIDTH := Nat.mod_lt _ (by decide)
    have h2 : (x0 + c') % SCREEN_WIDTH < SCREEN_WIDTH := Nat.mod_lt _ (by decide)
    simp only [SCREEN_WIDTH, SCREEN_HEIGHT] at h1 h2 heq hk
    omega

/-! ### The toggle fold -/

theorem foldl_toggle_length (L : List Nat) :
    ∀ acc : List Bool × Bool, (L.foldl toggleStep acc).1.length = acc.1.length := by
  induction L with
  | nil => intro acc; rfl
  | cons a L ih =>
    intro acc
    rw [List.foldl_cons, ih]
    simp [toggleStep]

theorem foldl_toggle_getD (L : List Nat) :
    ∀ acc : List Bool × Bool, L.Nodup → (∀ m ∈ L, m < acc.1.length) → ∀ j,
      (L.foldl toggleStep acc).1[j]?.getD false =
        if j ∈ L then xor (acc.1[j]?.getD false) true else acc.1[j]?.getD false := by
  induction L with
  | nil => intro acc _ _ j; simp
  | cons a L ih =>
    intro acc hN hB j
    have haL : a ∉ L := (List.nodup_cons.mp hN).1
    have hlen : (toggleStep acc a).1.length = acc.1.length := by simp [toggleStep]
    rw [List.foldl_cons, ih (toggleStep acc a) (List.nodup_cons.mp hN).2
      (fun m hm => by rw [hlen]; exact hB m (List.mem_cons_of_mem a hm)) j]
    by_cases hja : j = a
    · subst hja
      rw [if_neg haL, if_pos (List.mem_cons_self _ _)]
      show (acc.1.set j (xor (acc.1[j]?.getD false) true))[j]?.getD false = _
      exact getD_set_self (hB j (List.mem_cons_self _ _))
    · have hstep : (toggleStep acc a).1[j]?.getD false = acc.1[j]?.getD false :=
        getD_set_ne (fun e => hja e.symm)
      rw [hstep]
      by_cases hjL : j ∈ L
      · rw [if_pos hjL, if_pos (List.mem_cons_of_mem a hjL)]
      · rw [if_neg hjL, if_neg (fun hc => by
          rcases List.mem_cons.mp hc with h | h
          · exact hja h
          · exact hjL h)]

theorem foldl_toggle_flipped (L : List Nat) :
    ∀ acc : List Bool × Bool, L.Nodup →
      ((L.foldl toggleStep acc).2 = true ↔
        acc.2 = true ∨ ∃ j ∈ L, acc.1[j]?.getD false = true) := by
  induction L with
  | nil => intro acc _; simp
  | cons a L ih =>
    intro acc hN
    have haL : a ∉ L := (List.nodup_cons.mp hN).1
    rw [List.foldl_cons, ih (toggleStep acc a) (List.nodup_cons.mp hN).2]
    have hstep2 : (toggleStep acc a).2 = (acc.2 || acc.1[a]?.getD false) := rfl
    have hreads : ∀ j ∈ L, (toggleStep acc a).1[j]?.getD false = acc.1[j]?.getD false := by
      intro j hj
      exact getD_set_ne (fun e => haL (e ▸ hj))
    constructor
    · rintro (h2 | ⟨j, hj, hv⟩)
      · rw [hstep2] at h2
        rcases Bool.or_eq_true_iff.mp h2 with h | h
        · exact Or.inl h
        · exact Or.inr ⟨a, List.mem_cons_self _ _, h⟩
      · rw [hreads j hj] at hv
        exact Or.inr ⟨j, List.mem_cons_of_mem a hj, hv⟩
    · rintro (h2 | ⟨j, hj, hv⟩)
      · exact Or.inl (by rw [hstep2, h2]; rfl)
      · rcases List.mem_cons.mp hj with hja | hjL
        · subst hja
          exact Or.inl (by rw [hstep2, hv, Bool.or_true])
        · exact Or.inr ⟨j, hjL, by rw [hreads j hjL]; exact hv⟩

/-! ### Flattening the draw loops -/

theorem drawRowsAux_succ (ram : List Nat) (i x0 y0 : Nat) :
    ∀ (n yLine : Nat) (acc : List Bool × Bool),
      drawRowsAux ram i x0 y0 yLine (n + 1) acc =
        (match drawRowsAux ram i x0 y0 yLine n acc with
          | some acc1 =>
            (match ram[i + yLine + n]? with
              | some px => some (drawRow px x0 (y0 + yLine + n) acc1)
              | none => none)
          | none => none) := by
  intro n
  induction n with
  | zero =>
    intro yLine acc
    show (match ram[i + yLine]? with
      | some px => drawRowsAux ram i x0 y0 (yLine + 1) 0 (drawRow px x0 (y0 + yLine) acc)
      | none => none) = _
    simp only [Nat.add_zero]
    cases h : ram[i + yLine]? <;> rfl
  | succ k ih =>
    intro yLine acc
    show (match ram[i + yLine]? with
      | some px => drawRowsAux ram i x0 y0 (yLine + 1) (k + 1) (drawRow px x0 (y0 + yLine) acc)
      | none => none) = _
    cases h : ram[i + yLine]? with
    | none =>
      have hz : drawRowsAux ram i x0 y0 yLine (k + 1) acc = none := by
        show (match ram[i + yLine]? with
          | some px => drawRowsAux ram i x0 y0 (yLine + 1) k (drawRow px x0 (y0 + yLine) acc)
          | none => none) = none
        rw [h]
      rw [hz]
    | some px =>
      show drawRowsAux ram i x0 y0 (yLine + 1) (k + 1) (drawRow px x0 (y0 + yLine) acc) = _
      rw [ih (yLine + 1) (drawRow px x0 (y0 + yLine) acc)]
      have hidx : i + (yLine + 1) + k = i + yLine + (k + 1) := by omega
      have hidy : y0 + (yLine + 1) + k = y0 + yLine + (k + 1) := by omega
      rw [hidx, hidy]
      have hz : drawRowsAux ram i x0 y0 yLine (k + 1) acc =
          drawRowsAux ram i x0 y0 (yLine + 1) k (drawRow px x0 (y0 + yLine) acc) := by
        show (match ram[i + yLine]? with
          | some px1 => drawRowsAux ram i x0 y0 (yLine + 1) k (drawRow px1 x0 (y0 + yLine) acc)
          | none => none) = _
        rw [h]
      rw [hz]

theorem drawRowsAux_eq_foldl (ram : List Nat) (i x0 y0 : Nat) :
    ∀ (n : Nat) (acc : List Bool × Bool), (∀ r, r < n → i + r < ram.length) →
      drawRowsAux ram i x0 y0 0 n acc =
        some ((spriteIdxs ram i x0 y0 n).foldl toggleStep acc) := by
  intro n
  induction n with
  | zero => intro acc _; rfl
  | succ k ih =>
    intro acc hb
    rw [drawRowsAux_succ, ih acc (fun r hr => hb r (by omega))]
    have hlt : i + k < ram.length := hb k (by omega)
    rw [show i + 0 + k = i + k by omega, show y0 + 0 + k = y0 + k by omega,
      List.getElem?_eq_getElem hlt]
    show some (drawRow ram[i + k] x0 (y0 + k) _) = _
    show _ = some ((spriteIdxs ram i x0 y0 k ++
      rowIdxs (ram[i + k]?.getD 0) x0 (y0 + k)).foldl toggleStep acc)
    rw [List.foldl_append, drawRow_eq, List.getElem?_eq_getElem hlt]
    rfl

theorem drawRowsAux_some_bound (ram : List Nat) (i x0 y0 : Nat) :
    ∀ (n yLine : Nat) (acc : List Bool × Bool) {res},
      drawRowsAux ram i x0 y0 yLine n acc = some res →
      ∀ r, r < n → i + yLine + r < ram.length := by
  intro n
  induction n with
  | zero => intro yLine acc res _ r hr; omega
  | succ k ih =>
    intro yLine acc res hres r hr
    have hres1 : (match ram[i + yLine]? with
        | some px => drawRowsAux ram i x0 y0 (yLine + 1) k (drawRow px x0 (y0 + yLine) acc)
        | none => none) = some res := hres
    cases h : ram[i + yLine]? with
    | none => rw [h] at hres1; exact absurd hres1 (by simp)
    | some px =>
      rw [h] at hres1
      have h0 : i + yLine < ram.length := by
        rcases List.getElem?_eq_some.mp h with ⟨hl, -⟩
        exact hl
      rcases Nat.eq_or_lt_of_le (Nat.le_of_lt_succ hr) with hrk | hrk
      · rcases Nat.eq_zero_or_pos r with h0' | hpos
        · omega
        · have := ih (yLine + 1) (drawRow px x0 (y0 + yLine) acc) hres1 (r - 1) (by omega)
          omega
      · rcases Nat.eq_zero_or_pos r with h0' | hpos
        · omega
        · have := ih (yLine + 1) (drawRow px x0 (y0 + yLine) acc) hres1 (r - 1) (by omega)
          omega

theorem execute_draw_eq (s : Chip8) (rnd op : Nat) (h1 : nb1 op = 0xD)
    {disp : List Bool} {fl : Bool}
    (hd : drawRowsAux s.ram s.i_regi (s.v_regi[nb2 op]?.getD 0) (s.v_regi[nb3 op]?.getD 0) 0
      (nb4 op) (s.display, false) = some (disp, fl)) :
    s.execute rnd op = some { s with display := disp, v_regi := s.v_regi.set 0xF (if fl then 1 else 0) } := by
  unfold Chip8.execute
  rw [h1, hd]
  rfl

theorem execute_draw_none (s : Chip8) (rnd op : Nat) (h1 : nb1 op = 0xD)
    (hd : drawRowsAux s.ram s.i_regi (s.v_regi[nb2 op]?.getD 0) (s.v_regi[nb3 op]?.getD 0) 0
      (nb4 op) (s.display, false) = none) :
    s.execute rnd op = none := by
  unfold Chip8.execute
  rw [h1, hd]
  rfl

/-- C3: the draw instruction wraps per pixel: every set sprite bit at row r,
column c toggles (inverts) the display cell at column (VX + c) mod 64 and row
(VY + r) mod 32 of the row-major display. -/
theorem draw_toggles_wrapped (s : Chip8) (rnd op : Nat) (hwf : WF s)
    (h1 : nb1 op = 0xD) (hb : ∀ r, r < nb4 op → s.i_regi + r < RAM_SIZE) :
    ∃ s1, s.execute rnd op = some s1 ∧
      ∀ r, r < nb4 op → ∀ c, c < 8 →
        s.ram[s.i_regi + r]?.getD 0 &&& (128 >>> c) ≠ 0 →
        s1.display[(s.v_regi[nb2 op]?.getD 0 + c) % SCREEN_WIDTH + SCREEN_WIDTH * ((s.v_regi[nb3 op]?.getD 0 + r) % SCREEN_HEIGHT)]?.getD false = !(s.display[(s.v_regi[nb2 op]?.getD 0 + c) % SCREEN_WIDTH + SCREEN_WIDTH * ((s.v_regi[nb3 op]?.getD 0 + r) % SCREEN_HEIGHT)]?.getD false) := by
  have hb' : ∀ r, r < nb4 op → s.i_regi + r < s.ram.length := by
    intro r hr
    rw [hwf.1]
    exact hb r hr
  have hd := drawRowsAux_eq_foldl s.ram s.i_regi (s.v_regi[nb2 op]?.getD 0)
    (s.v_regi[nb3 op]?.getD 0) (nb4 op) (s.display, false) hb'
  have hN : (spriteIdxs s.ram s.i_regi (s.v_regi[nb2 op]?.getD 0)
      (s.v_regi[nb3 op]?.getD 0) (nb4 op)).Nodup := by
    apply nodup_spriteIdxs
    have := nb4_lt op
    simp only [SCREEN_HEIGHT]
    omega
  have hB : ∀ m ∈ spriteIdxs s.ram s.i_regi (s.v_regi[nb2 op]?.getD 0)
      (s.v_regi[nb3 op]?.getD 0) (nb4 op), m < s.display.length := by
    intro m hm
    have := mem_spriteIdxs_lt hm
    rw [hwf.2.2.1]
    exact this
  refine ⟨_, execute_draw_eq s rnd op h1 (by rw [hd]), ?_⟩
  intro r hr c hc hbit
  have hmem : (s.v_regi[nb2 op]?.getD 0 + c) % SCREEN_WIDTH +
      SCREEN_WIDTH * ((s.v_regi[nb3 op]?.getD 0 + r) % SCREEN_HEIGHT) ∈
      spriteIdxs s.ram s.i_regi (s.v_regi[nb2 op]?.getD 0)
        (s.v_regi[nb3 op]?.getD 0) (nb4 op) :=
    mem_spriteIdxs.mpr ⟨r, hr, mem_rowIdxs.mpr ⟨c, hc, hbit, rfl⟩⟩
  have hg := foldl_toggle_getD
    (spriteIdxs s.ram s.i_regi (s.v_regi[nb2 op]?.getD 0) (s.v_regi[nb3 op]?.getD 0) (nb4 op))
    (s.display, false) hN hB
    ((s.v_regi[nb2 op]?.getD 0 + c) % SCREEN_WIDTH +
      SCREEN_WIDTH * ((s.v_regi[nb3 op]?.getD 0 + r) % SCREEN_HEIGHT))
  rw [if_pos hmem] at hg
  show ((spriteIdxs s.ram s.i_regi (s.v_regi[nb2 op]?.getD 0) (s.v_regi[nb3 op]?.getD 0)
    (nb4 op)).foldl toggleStep (s.display, false)).1[_]?.getD false = _
  rw [hg]
  simp [Bool.xor_true]

/-- State with V0 = 63, V1 = 31 and I = 0 (the font glyph for 0). -/
def sWrap : Chip8 := { Chip8.init with v_regi := (Chip8.init.v_regi.set 0 63).set 1 31, i_regi := 0 }

theorem draw_toggles_wrapped_witness :
    ∃ s1, Chip8.execute sWrap 0 0xD012 = some s1 ∧
      ∀ r, r < nb4 0xD012 → ∀ c, c < 8 →
        sWrap.ram[sWrap.i_regi + r]?.getD 0 &&& (128 >>> c) ≠ 0 →
        s1.display[(sWrap.v_regi[nb2 0xD012]?.getD 0 + c) % SCREEN_WIDTH + SCREEN_WIDTH * ((sWrap.v_regi[nb3 0xD012]?.getD 0 + r) % SCREEN_HEIGHT)]?.getD false = !(sWrap.display[(sWrap.v_regi[nb2 0xD012]?.getD 0 + c) % SCREEN_WIDTH + SCREEN_WIDTH * ((sWrap.v_regi[nb3 0xD012]?.getD 0 + r) % SCREEN_HEIGHT)]?.getD false) :=
  draw_toggles_wrapped sWrap 0 0xD012
    (WF_set_v _ (WF_set_v _ WF_init 0 63 (by norm_num)) 1 31 (by norm_num))
    (by decide) (by decide)

/-- C4: drawing the identical sprite twice in succession (same VX, VY as
ensured by the two register-value hypotheses; N, I and the sprite bytes are
untouched by the first draw) restores the whole display to its pre-draw
content, and the second draw reports a collision (VF = 1) whenever the first
draw turned some pixel from unset to set. -/
theorem draw_twice_restores (s s1 : Chip8) (rnd1 rnd2 op : Nat) (hwf : WF s)
    (h1 : nb1 op = 0xD)
    (hex : s.execute rnd1 op = some s1)
    (hx : s1.v_regi[nb2 op]?.getD 0 = s.v_regi[nb2 op]?.getD 0)
    (hy : s1.v_regi[nb3 op]?.getD 0 = s.v_regi[nb3 op]?.getD 0) :
    ∃ s2, s1.execute rnd2 op = some s2 ∧ s2.display = s.display ∧
      ((∃ j : Nat, s.display[j]?.getD false = false ∧ s1.display[j]?.getD false = true) →
        s2.v_regi[0xF]?.getD 0 = 1) := by
  cases hd : drawRowsAux s.ram s.i_regi (s.v_regi[nb2 op]?.getD 0)
      (s.v_regi[nb3 op]?.getD 0) 0 (nb4 op) (s.display, false) with
  | none =>
    rw [execute_draw_none s rnd1 op h1 hd] at hex
    exact absurd hex (by simp)
  | some res =>
    have hb' : ∀ r, r < nb4 op → s.i_regi + r < s.ram.length := by
      intro r hr
      have := drawRowsAux_some_bound s.ram s.i_regi (s.v_regi[nb2 op]?.getD 0)
        (s.v_regi[nb3 op]?.getD 0) (nb4 op) 0 (s.display, false) hd r hr
      omega
    have hF := drawRowsAux_eq_foldl s.ram s.i_regi (s.v_regi[nb2 op]?.getD 0)
      (s.v_regi[nb3 op]?.getD 0) (nb4 op) (s.display, false) hb'
    rw [hd] at hF
    have hres : res = (spriteIdxs s.ram s.i_regi (s.v_regi[nb2 op]?.getD 0)
        (s.v_regi[nb3 op]?.getD 0) (nb4 op)).foldl toggleStep (s.display, false) := by
      injection hF
    have hs1eq : s1 = { s with display := res.1, v_regi := s.v_regi.set 0xF (if res.2 then 1 else 0) } := by
      have h' := execute_draw_eq s rnd1 op h1 (show _ = some (res.1, res.2) by rw [hd])
      rw [h'] at hex
      injection hex with hh
      exact hh.symm
    have hN : (spriteIdxs s.ram s.i_regi (s.v_regi[nb2 op]?.getD 0)
        (s.v_regi[nb3 op]?.getD 0) (nb4 op)).Nodup := by
      apply nodup_spriteIdxs
      have := nb4_lt op
      simp only [SCREEN_HEIGHT]
      omega
    have hB1 : ∀ m ∈ spriteIdxs s.ram s.i_regi (s.v_regi[nb2 op]?.getD 0)
        (s.v_regi[nb3 op]?.getD 0) (nb4 op), m < s.display.length := by
      intro m hm
      have := mem_spriteIdxs_lt hm
      rw [hwf.2.2.1]
      exact this
    have hlen1 : res.1.length = s.display.length := by
      rw [hres]
      exact foldl_toggle_length _ _
    have hB2 : ∀ m ∈ spriteIdxs s.ram s.i_regi (s.v_regi[nb2 op]?.getD 0)
        (s.v_regi[nb3 op]?.getD 0) (nb4 op), m < res.1.length := by
      intro m hm
      rw [hlen1]
      exact hB1 m hm
    subst hs1eq
    -- the second draw acts on the same sprite index set
    have hd2 := drawRowsAux_eq_foldl s.ram s.i_regi (s.v_regi[nb2 op]?.getD 0)
      (s.v_regi[nb3 op]?.getD 0) (nb4 op) (res.1, false) hb'
    have hget1 := foldl_toggle_getD (spriteIdxs s.ram s.i_regi (s.v_regi[nb2 op]?.getD 0)
      (s.v_regi[nb3 op]?.getD 0) (nb4 op)) (s.display, false) hN hB1
    have hget2 := foldl_toggle_getD (spriteIdxs s.ram s.i_regi (s.v_regi[nb2 op]?.getD 0)
      (s.v_regi[nb3 op]?.getD 0) (nb4 op)) (res.1, false) hN hB2
    have hx2 : (s.v_regi.set 0xF (if res.2 then 1 else 0))[nb2 op]?.getD 0 = s.v_regi[nb2 op]?.getD 0 := hx
    have hy2 : (s.v_regi.set 0xF (if res.2 then 1 else 0))[nb3 op]?.getD 0 = s.v_regi[nb3 op]?.getD 0 := hy
    have hd3 : drawRowsAux s.ram s.i_regi ((s.v_regi.set 0xF (if res.2 then 1 else 0))[nb2 op]?.getD 0) ((s.v_regi.set 0xF (if res.2 then 1 else 0))[nb3 op]?.getD 0) 0 (nb4 op) (res.1, false) = some (((spriteIdxs s.ram s.i_regi (s.v_regi[nb2 op]?.getD 0) (s.v_regi[nb3 op]?.getD 0) (nb4 op)).foldl toggleStep (res.1, false)).1, ((spriteIdxs s.ram s.i_regi (s.v_regi[nb2 op]?.getD 0) (s.v_regi[nb3 op]?.getD 0) (nb4 op)).foldl toggleStep (res.1, false)).2) := by
      rw [hx2, hy2, hd2]
    have hstep2 : ({ s with display := res.1, v_regi := s.v_regi.set 0xF (if res.2 then 1 else 0) } : Chip8).execute rnd2 op = some { s with display := ((spriteIdxs s.ram s.i_regi (s.v_regi[nb2 op]?.getD 0) (s.v_regi[nb3 op]?.getD 0) (nb4 op)).foldl toggleStep (res.1, false)).1, v_regi := (s.v_regi.set 0xF (if res.2 then 1 else 0)).set 0xF (if ((spriteIdxs s.ram s.i_regi (s.v_regi[nb2 op]?.getD 0) (s.v_regi[nb3 op]?.getD 0) (nb4 op)).foldl toggleStep (res.1, false)).2 then 1 else 0) } := by
      apply execute_draw_eq _ rnd2 op h1
      exact hd3
    refine ⟨_, hstep2, ?_, ?_⟩
    · -- display fully restored
      show ((spriteIdxs s.ram s.i_regi (s.v_regi[nb2 op]?.getD 0)
        (s.v_regi[nb3 op]?.getD 0) (nb4 op)).foldl toggleStep (res.1, false)).1 = s.display
      apply List.ext_getElem
      · rw [foldl_toggle_length, hlen1]
      · intro n hn1 hn2
        have e2 := hget2 n
        have e1 := hget1 n
        have hval : (((spriteIdxs s.ram s.i_regi (s.v_regi[nb2 op]?.getD 0)
            (s.v_regi[nb3 op]?.getD 0) (nb4 op)).foldl toggleStep (res.1, false)).1)[n]?.getD false =
            s.display[n]?.getD false := by
          rw [e2]
          by_cases hmem : n ∈ spriteIdxs s.ram s.i_regi (s.v_regi[nb2 op]?.getD 0)
            (s.v_regi[nb3 op]?.getD 0) (nb4 op)
          · rw [if_pos hmem, hres]
            show xor ((((spriteIdxs s.ram s.i_regi (s.v_regi[nb2 op]?.getD 0)
              (s.v_regi[nb3 op]?.getD 0) (nb4 op)).foldl toggleStep
              (s.display, false)).1)[n]?.getD false) true = _
            rw [e1, if_pos hmem]
            simp [Bool.xor_true]
          · rw [if_neg hmem, hres]
            show (((spriteIdxs s.ram s.i_regi (s.v_regi[nb2 op]?.getD 0)
              (s.v_regi[nb3 op]?.getD 0) (nb4 op)).foldl toggleStep
              (s.display, false)).1)[n]?.getD false = _
            rw [e1, if_neg hmem]
        rw [List.getElem?_eq_getElem hn1, List.getElem?_eq_getElem hn2] at hval
        simp only [Option.getD_some] at hval
        exact hval
    · -- collision flag
      rintro ⟨j, hj0, hj1⟩
      have hjmem : j ∈ spriteIdxs s.ram s.i_regi (s.v_regi[nb2 op]?.getD 0)
          (s.v_regi[nb3 op]?.getD 0) (nb4 op) := by
        by_contra hjn
        have e1 := hget1 j
        rw [if_neg hjn] at e1
        have : res.1[j]?.getD false = s.display[j]?.getD false := by
          rw [hres]
          exact e1
        rw [hj0] at this
        have hj1' : res.1[j]?.getD false = true := hj1
        rw [hj1'] at this
        exact Bool.noConfusion this
      have hflip : ((spriteIdxs s.ram s.i_regi (s.v_regi[nb2 op]?.getD 0)
          (s.v_regi[nb3 op]?.getD 0) (nb4 op)).foldl toggleStep (res.1, false)).2 = true := by
        rw [foldl_toggle_flipped _ _ hN]
        exact Or.inr ⟨j, hjmem, hj1⟩
      show ((s.v_regi.set 0xF (if res.2 then 1 else 0)).set 0xF
        (if ((spriteIdxs s.ram s.i_regi (s.v_regi[nb2 op]?.getD 0)
          (s.v_regi[nb3 op]?.getD 0) (nb4 op)).foldl toggleStep (res.1, false)).2
         then 1 else 0))[0xF]?.getD 0 = 1
      rw [hflip]
      apply getD_set_self
      rw [List.length_set, hwf.2.1]
      decide

/-- State with I = 0, pointing at the fontset glyph for 0. -/
def sDD : Chip8 := { Chip8.init with i_regi := 0 }

/-- The state after the first draw of opcode 0xD011 from `sDD`: the toggle
fold applied to the fresh display, with VF holding the collision flag. -/
def sDD1 : Chip8 :=
  { sDD with
    display := ((spriteIdxs sDD.ram sDD.i_regi (sDD.v_regi[nb2 0xD011]?.getD 0)
      (sDD.v_regi[nb3 0xD011]?.getD 0) (nb4 0xD011)).foldl toggleStep (sDD.display, false)).1,
    v_regi := sDD.v_regi.set 0xF
      (if ((spriteIdxs sDD.ram sDD.i_regi (sDD.v_regi[nb2 0xD011]?.getD 0)
          (sDD.v_regi[nb3 0xD011]?.getD 0) (nb4 0xD011)).foldl toggleStep
          (sDD.display, false)).2
       then 1 else 0) }

theorem draw_twice_restores_witness :
    ∃ s2, sDD1.execute 0 0xD011 = some s2 ∧ s2.display = sDD.display ∧
      ((∃ j : Nat, sDD.display[j]?.getD false = false ∧ sDD1.display[j]?.getD false = true) →
        s2.v_regi[0xF]?.getD 0 = 1) := by
  have hlen : sDD.ram.length = 4096 := init_ram_length
  have hi0 : sDD.i_regi = 0 := rfl
  have hb : ∀ r, r < nb4 0xD011 → sDD.i_regi + r < sDD.ram.length := by
    intro r hr
    have hr1 : r < 1 := hr
    rw [hlen, hi0]
    omega
  have hd : drawRowsAux sDD.ram sDD.i_regi (sDD.v_regi[nb2 0xD011]?.getD 0)
      (sDD.v_regi[nb3 0xD011]?.getD 0) 0 (nb4 0xD011) (sDD.display, false) =
      some (((spriteIdxs sDD.ram sDD.i_regi (sDD.v_regi[nb2 0xD011]?.getD 0)
          (sDD.v_regi[nb3 0xD011]?.getD 0) (nb4 0xD011)).foldl toggleStep
          (sDD.display, false)).1,
        ((spriteIdxs sDD.ram sDD.i_regi (sDD.v_regi[nb2 0xD011]?.getD 0)
          (sDD.v_regi[nb3 0xD011]?.getD 0) (nb4 0xD011)).foldl toggleStep
          (sDD.display, false)).2) := by
    rw [drawRowsAux_eq_foldl sDD.ram sDD.i_regi (sDD.v_regi[nb2 0xD011]?.getD 0)
      (sDD.v_regi[nb3 0xD011]?.getD 0) (nb4 0xD011) (sDD.display, false) hb,
      Prod.mk.eta]
  have hex : sDD.execute 0 0xD011 = some sDD1 :=
    execute_draw_eq sDD 0 0xD011 (by decide) hd
  have hx : sDD1.v_regi[nb2 0xD011]?.getD 0 = sDD.v_regi[nb2 0xD011]?.getD 0 :=
    getD_set_ne (by decide)
  have hy : sDD1.v_regi[nb3 0xD011]?.getD 0 = sDD.v_regi[nb3 0xD011]?.getD 0 :=
    getD_set_ne (by decide)
  exact draw_twice_restores sDD sDD1 0 0 0xD011 WF_init (by decide) hex hx hy
